import Mathlib

/-!
Verification development for the `zoned_time_lite` Python library
(`src/python/zoned_time_lite`).

The library converts between UTC instants and civil (wall-clock) time in a
named timezone on top of two external collaborators:

* CPython's `datetime` module (proleptic Gregorian calendar arithmetic,
  `datetime(year, month, day, hour, minute, second)` construction,
  `astimezone`), and
* CPython's `zoneinfo` module backed by the platform IANA database
  (per-instant UTC offsets, PEP 495 fold semantics for localizing naive
  datetimes).

Both collaborators are embedded here:

* the calendar model follows CPython's `datetime` internals
  (`_ymd2ord` / `_ord2ymd` / `_days_before_year` / the month tables),
  with naive datetimes represented as seconds relative to the epoch
  1970-01-01T00:00:00 and instants as seconds plus microseconds;
* a timezone is a step function of UTC time given by a base offset and a
  finite sorted list of transitions; localization of a naive datetime with
  `fold=0` follows PEP 495 (inside a fold or gap the offset in force
  before the transition applies), which is what
  `naive.replace(tzinfo=ZoneInfo(tz)).astimezone(timezone.utc)` computes.

The model treats the naive timeline as unbounded; CPython's
`datetime.MINYEAR = 1` / `MAXYEAR = 9999` bounds appear only in the
constructor check (`mkNaive`), mirroring where the library can observe
them through `ValueError`.
-/

namespace ZonedTimeLite

/-! ### Calendar model: CPython `datetime` internals -/

/-- Model of CPython `_is_leap`: `year % 4 == 0 and (year % 100 != 0 or year % 400 == 0)`.
Lean's `%` on `Int` agrees with Python's `%` for positive divisors. -/
def _is_leap (y : Int) : Bool := y % 4 == 0 && (y % 100 != 0 || y % 400 == 0)

/-- Model of CPython's `_DAYS_IN_MONTH` list lookup (1-indexed; the library
only reads indices 1 through 12). -/
def _DAYS_IN_MONTH (m : Int) : Int :=
  match m.toNat with
  | 1 => 31 | 2 => 28 | 3 => 31 | 4 => 30 | 5 => 31 | 6 => 30
  | 7 => 31 | 8 => 31 | 9 => 30 | 10 => 31 | 11 => 30 | _ => 31

/-- Model of CPython's `_DAYS_BEFORE_MONTH` list lookup (1-indexed; the
library only reads indices 1 through 12). -/
def _DAYS_BEFORE_MONTH (m : Int) : Int :=
  match m.toNat with
  | 1 => 0 | 2 => 31 | 3 => 59 | 4 => 90 | 5 => 120 | 6 => 151
  | 7 => 181 | 8 => 212 | 9 => 243 | 10 => 273 | 11 => 304 | _ => 334

/-- Model of CPython `_days_in_month`. -/
def _days_in_month (y m : Int) : Int :=
  if m = 2 ∧ _is_leap y = true then 29 else _DAYS_IN_MONTH m

/-- Model of CPython `_days_before_year`: days before January 1st of `year`.
Python's `//` agrees with Lean's `Int` division for positive divisors. -/
def _days_before_year (y : Int) : Int :=
  (y - 1) * 365 + (y - 1) / 4 - (y - 1) / 100 + (y - 1) / 400

/-- Model of CPython `_days_before_month`: days in `year` preceding the first
of `month`. -/
def _days_before_month (y m : Int) : Int :=
  _DAYS_BEFORE_MONTH m + (if 2 < m ∧ _is_leap y = true then 1 else 0)

/-- Model of CPython `_ymd2ord`: proleptic Gregorian ordinal
(0001-01-01 is day 1). -/
def _ymd2ord (y m d : Int) : Int :=
  _days_before_year y + _days_before_month y m + d

/-- Month/day extraction step of CPython `_ord2ymd`: given the leap flag of
the year and the 0-based day of the year `n`, estimate
`month = (n + 50) >> 5`, compute the days preceding that month, and correct
the estimate down by one month when it overshoots. -/
def _find_month (ly : Bool) (n : Int) : Int × Int :=
  let month := (n + 50) / 32
  let preceding := _DAYS_BEFORE_MONTH month + (if 2 < month ∧ ly = true then 1 else 0)
  if n < preceding then
    let m2 := month - 1
    let p2 := preceding - (_DAYS_IN_MONTH m2 + (if m2 = 2 ∧ ly = true then 1 else 0))
    (m2, n - p2 + 1)
  else
    (month, n - preceding + 1)

/-- Body of CPython `_ord2ymd` inside one 400-year cycle: `r` is the 0-based
day index in the cycle (`0 ≤ r < 146097`), the result year lies in `[1, 400]`.
Follows CPython's chain `divmod(r, 36524)`, `divmod(·, 1461)`,
`divmod(·, 365)` with the `n1 == 4 or n100 == 4` December-31st special case
and the `leapyear = n1 == 3 and (n4 != 24 or n100 == 3)` flag. -/
def _ord2ymd_block (r : Int) : Int × Int × Int :=
  let n100 := r / 36524
  let n4 := r % 36524 / 1461
  let n1 := r % 36524 % 1461 / 365
  let nd := r % 36524 % 1461 % 365
  let year := n100 * 100 + n4 * 4 + n1 + 1
  if n1 = 4 ∨ n100 = 4 then
    (year - 1, 12, 31)
  else
    let md := _find_month ((n1 == 3) && (n4 != 24 || n100 == 3)) nd
    (year, md.1, md.2)

/-- Model of CPython `_ord2ymd`: the leading `divmod(n - 1, _DI400Y)` step
followed by the in-cycle computation. -/
def _ord2ymd (n : Int) : Int × Int × Int :=
  let n400 := (n - 1) / 146097
  let ymd := _ord2ymd_block ((n - 1) % 146097)
  (n400 * 400 + ymd.1, ymd.2.1, ymd.2.2)

/-! ### Calendar correctness

`_ymd2ord` and `_ord2ymd` are mutually inverse. The proof works inside a
single 400-year cycle (year extraction by linear arithmetic over the
`divmod` chain, month extraction by finite check over the 366 days of a
year) and lifts along the exact 146097-day periodicity of the cycle. -/

theorem _is_leap_iff (y : Int) :
    _is_leap y = true ↔ (y % 4 = 0 ∧ (y % 100 ≠ 0 ∨ y % 400 = 0)) := by
  simp [_is_leap]

theorem bool_eq_of_iff {a b : Bool} (h : (a = true) ↔ (b = true)) : a = b := by
  cases a <;> cases b <;> simp_all

/-- Periodicity of the leap-year predicate over 400-year cycles. -/
theorem _is_leap_add_400 (q y : Int) : _is_leap (400 * q + y) = _is_leap y := by
  apply bool_eq_of_iff
  rw [_is_leap_iff, _is_leap_iff]
  omega

/-- Periodicity of `_days_before_year` over 400-year cycles. -/
theorem _days_before_year_add_400 (q y : Int) :
    _days_before_year (400 * q + y) = 146097 * q + _days_before_year y := by
  simp only [_days_before_year]
  have h4 : (400 * q + y - 1) / 4 = 100 * q + (y - 1) / 4 := by omega
  have h100 : (400 * q + y - 1) / 100 = 4 * q + (y - 1) / 100 := by omega
  have h400 : (400 * q + y - 1) / 400 = q + (y - 1) / 400 := by omega
  rw [h4, h100, h400]; ring

/-- Periodicity of `_ymd2ord` over 400-year cycles. -/
theorem _ymd2ord_add_400 (q y m d : Int) :
    _ymd2ord (400 * q + y) m d = 146097 * q + _ymd2ord y m d := by
  simp only [_ymd2ord, _days_before_month, _is_leap_add_400, _days_before_year_add_400]
  ring

/-- Boolean validity/roundtrip package for `_find_month`: the returned month
and day are in range, the day respects the (leap-adjusted) month length, and
days-before-month plus day minus one reproduces the day of year. -/
def _find_month_ok (ly : Bool) (n : Int) : Bool :=
  let md := _find_month ly n
  1 ≤ md.1 && md.1 ≤ 12 && 1 ≤ md.2 &&
  md.2 ≤ _DAYS_IN_MONTH md.1 + (if md.1 = 2 ∧ ly = true then 1 else 0) &&
  _DAYS_BEFORE_MONTH md.1 + (if 2 < md.1 ∧ ly = true then 1 else 0) + md.2 - 1 == n

set_option maxRecDepth 4000 in
theorem _find_month_ok_nat : ∀ n : Nat, n < 365 →
    (_find_month_ok false (n : Int) = true ∧ _find_month_ok true (n : Int) = true) := by
  decide

theorem _find_month_ok_int (ly : Bool) (n : Int) (h0 : 0 ≤ n) (h1 : n < 365) :
    _find_month_ok ly n = true := by
  have h := _find_month_ok_nat n.toNat (by omega)
  rw [Int.toNat_of_nonneg h0] at h
  cases ly
  · exact h.1
  · exact h.2

/-- Inverse direction of the month extraction, as a finite check: for every
valid month/day pair, `_find_month` recovers it from its day of year. -/
def _find_month_inv_ok (ly : Bool) (m d : Int) : Bool :=
  if 1 ≤ d ∧ d ≤ _DAYS_IN_MONTH m + (if m = 2 ∧ ly = true then 1 else 0) then
    _find_month ly (_DAYS_BEFORE_MONTH m + (if 2 < m ∧ ly = true then 1 else 0) + d - 1)
      == (m, d)
  else
    true

set_option maxRecDepth 4000 in
theorem _find_month_inv_nat : ∀ m : Nat, m < 12 → ∀ d : Nat, d < 31 →
    (_find_month_inv_ok false ((m : Int) + 1) ((d : Int) + 1) = true ∧
     _find_month_inv_ok true ((m : Int) + 1) ((d : Int) + 1) = true) := by
  decide

theorem _find_month_inv_int (ly : Bool) (m d : Int)
    (hm1 : 1 ≤ m) (hm2 : m ≤ 12) (hd1 : 1 ≤ d)
    (hd2 : d ≤ _DAYS_IN_MONTH m + (if m = 2 ∧ ly = true then 1 else 0)) :
    _find_month ly (_DAYS_BEFORE_MONTH m + (if 2 < m ∧ ly = true then 1 else 0) + d - 1)
      = (m, d) := by
  have hdm : _DAYS_IN_MONTH m ≤ 31 := by
    unfold _DAYS_IN_MONTH
    repeat' split
    all_goals omega
  have hd31 : d ≤ 31 := by
    by_cases h2 : m = 2 ∧ ly = true
    · rw [if_pos h2] at hd2
      have h28 : _DAYS_IN_MONTH m = 28 := by rw [h2.1]; rfl
      omega
    · rw [if_neg h2] at hd2
      omega
  have h := _find_month_inv_nat (m - 1).toNat (by omega) (d - 1).toNat (by omega)
  have hmm : ((m - 1).toNat : Int) + 1 = m := by omega
  have hdd : ((d - 1).toNat : Int) + 1 = d := by omega
  rw [hmm, hdd] at h
  have h' : _find_month_inv_ok ly m d = true := by
    cases ly
    · exact h.1
    · exact h.2
  simp only [_find_month_inv_ok] at h'
  rw [if_pos (And.intro hd1 hd2)] at h'
  exact beq_iff_eq.mp h'

/-- Year extraction inside one 400-year cycle: the `divmod` chain quotients
reproduce `_days_before_year` of the extracted year. -/
theorem yearStage_core (n100 n4 n1 : Int)
    (ha : 0 ≤ n100) (hb : n100 ≤ 3) (hc : 0 ≤ n4) (hd : n4 ≤ 24)
    (he : 0 ≤ n1) (hf : n1 ≤ 3) :
    _days_before_year (n100 * 100 + n4 * 4 + n1 + 1) = 36524 * n100 + 1461 * n4 + 365 * n1 := by
  have h4 : (n100 * 100 + n4 * 4 + n1) / 4 = 25 * n100 + n4 := by omega
  have h100 : (n100 * 100 + n4 * 4 + n1) / 100 = n100 := by omega
  have h400 : (n100 * 100 + n4 * 4 + n1) / 400 = 0 := by omega
  simp only [_days_before_year]
  omega

/-- Leap-flag consistency of CPython's `leapyear = n1 == 3 and (n4 != 24 or
n100 == 3)` with `_is_leap` of the extracted year. -/
theorem leapStage_core (n100 n4 n1 : Int)
    (ha : 0 ≤ n100) (hb : n100 ≤ 3) (hc : 0 ≤ n4) (hd : n4 ≤ 24)
    (he : 0 ≤ n1) (hf : n1 ≤ 3) :
    ((n1 == 3) && (n4 != 24 || n100 == 3)) = _is_leap (n100 * 100 + n4 * 4 + n1 + 1) := by
  apply bool_eq_of_iff
  rw [_is_leap_iff]
  simp only [Bool.and_eq_true, Bool.or_eq_true, beq_iff_eq, bne_iff_ne]
  constructor
  · rintro ⟨h3, h24⟩
    omega
  · rintro ⟨h4, h100⟩
    omega

/-- December-31st special case of `_ord2ymd` (`n1 == 4 or n100 == 4`): the
day closes a leap year, and `_ymd2ord (year - 1) 12 31` recovers the input. -/
theorem yearStage_special_core (n100 n4 n1 nd : Int)
    (ha : 0 ≤ n100) (hb : n100 ≤ 4) (hc : 0 ≤ n4) (hd : n4 ≤ 24)
    (he : 0 ≤ n1) (hf : n1 ≤ 4) (hg : 0 ≤ nd)
    (hm : 365 * n1 + nd ≤ 1460)
    (hn : 1461 * n4 + 365 * n1 + nd ≤ 36523)
    (hr : 36524 * n100 + 1461 * n4 + 365 * n1 + nd ≤ 146096)
    (hsp : n1 = 4 ∨ n100 = 4) :
    _days_before_year (n100 * 100 + n4 * 4 + n1) + 334 +
      (if _is_leap (n100 * 100 + n4 * 4 + n1) = true then 1 else 0) + 31
      = 36524 * n100 + 1461 * n4 + 365 * n1 + nd + 1 := by
  have hiff := _is_leap_iff (n100 * 100 + n4 * 4 + n1)
  rcases hsp with h | h
  · have hnd : nd = 0 := by omega
    have h24 : n4 ≤ 23 := by omega
    have h3 : n100 ≤ 3 := by omega
    have e4 : (n100 * 100 + n4 * 4 + n1 - 1) / 4 = 25 * n100 + n4 := by omega
    have e100 : (n100 * 100 + n4 * 4 + n1 - 1) / 100 = n100 := by omega
    have e400 : (n100 * 100 + n4 * 4 + n1 - 1) / 400 = 0 := by omega
    have hleap : _is_leap (n100 * 100 + n4 * 4 + n1) = true := by
      rw [hiff]; omega
    rw [hleap]
    simp only [_days_before_year, if_pos]
    omega
  · have hz : n4 = 0 ∧ n1 = 0 ∧ nd = 0 := by omega
    obtain ⟨h1, h2, h3⟩ := hz
    subst h; subst h1; subst h2; subst h3
    have hleap : _is_leap (4 * 100 + 0 * 4 + 0) = true := by rw [hiff]; omega
    rw [hleap]
    simp only [_days_before_year, if_pos]
    norm_num

/-- Roundtrip and validity of `_ord2ymd_block`: for a day index `r` in
`[0, 146097)` the extracted `(year, month, day)` is a valid date of a year
in `[1, 400]` and `_ymd2ord` maps it back to `r + 1`. -/
theorem _ord2ymd_block_spec (r : Int) (h0 : 0 ≤ r) (h1 : r < 146097) :
    ∀ y m d, _ord2ymd_block r = (y, m, d) →
      _ymd2ord y m d = r + 1 ∧ 1 ≤ y ∧ y ≤ 400 ∧ 1 ≤ m ∧ m ≤ 12 ∧
      1 ≤ d ∧ d ≤ _days_in_month y m := by
  intro y m d heq
  have ha : 0 ≤ r / 36524 ∧ r / 36524 ≤ 4 := by omega
  have hc : 0 ≤ r % 36524 / 1461 ∧ r % 36524 / 1461 ≤ 24 := by omega
  have he : 0 ≤ r % 36524 % 1461 / 365 ∧ r % 36524 % 1461 / 365 ≤ 4 := by omega
  have hg : 0 ≤ r % 36524 % 1461 % 365 ∧ r % 36524 % 1461 % 365 ≤ 364 := by omega
  simp only [_ord2ymd_block] at heq
  by_cases hsp : r % 36524 % 1461 / 365 = 4 ∨ r / 36524 = 4
  · rw [if_pos hsp] at heq
    rw [Prod.mk.injEq, Prod.mk.injEq] at heq
    obtain ⟨hy, hm, hd⟩ := heq
    subst hy; subst hm; subst hd
    have hcore := yearStage_special_core (r / 36524) (r % 36524 / 1461)
      (r % 36524 % 1461 / 365) (r % 36524 % 1461 % 365)
      (by omega) (by omega) (by omega) (by omega) (by omega) (by omega) (by omega)
      (by omega) (by omega) (by omega) hsp
    have harg : r / 36524 * 100 + r % 36524 / 1461 * 4 + r % 36524 % 1461 / 365 + 1 - 1
        = r / 36524 * 100 + r % 36524 / 1461 * 4 + r % 36524 % 1461 / 365 := by ring
    refine ⟨?_, ?_, ?_, by norm_num, by norm_num, by norm_num, ?_⟩
    · simp only [_ymd2ord, _days_before_month, harg]
      have h334 : _DAYS_BEFORE_MONTH 12 = 334 := rfl
      rw [h334]
      simp only [show ((2:Int) < 12) ↔ True from by norm_num, true_and]
      omega
    · omega
    · omega
    · rw [harg]
      have hdim : _days_in_month (r / 36524 * 100 + r % 36524 / 1461 * 4
          + r % 36524 % 1461 / 365) 12 = 31 := by
        simp only [_days_in_month]
        rw [if_neg (by norm_num)]
        rfl
      rw [hdim]
  · rw [if_neg hsp] at heq
    push_neg at hsp
    obtain ⟨hsp1, hsp2⟩ := hsp
    rw [Prod.mk.injEq, Prod.mk.injEq] at heq
    obtain ⟨hy, hm, hd⟩ := heq
    subst hy; subst hm; subst hd
    have hL := leapStage_core (r / 36524) (r % 36524 / 1461) (r % 36524 % 1461 / 365)
      (by omega) (by omega) (by omega) (by omega) (by omega) (by omega)
    have hcore := yearStage_core (r / 36524) (r % 36524 / 1461) (r % 36524 % 1461 / 365)
      (by omega) (by omega) (by omega) (by omega) (by omega) (by omega)
    rw [hL]
    have hok := _find_month_ok_int
      (_is_leap (r / 36524 * 100 + r % 36524 / 1461 * 4 + r % 36524 % 1461 / 365 + 1))
      (r % 36524 % 1461 % 365) (by omega) (by omega)
    simp only [_find_month_ok, Bool.and_eq_true, decide_eq_true_eq, beq_iff_eq] at hok
    obtain ⟨⟨⟨⟨hok1, hok2⟩, hok3⟩, hok4⟩, hok5⟩ := hok
    have hdec : 36524 * (r / 36524) + 1461 * (r % 36524 / 1461)
        + 365 * (r % 36524 % 1461 / 365) + r % 36524 % 1461 % 365 = r := by omega
    refine ⟨?_, by omega, by omega, hok1, hok2, hok3, ?_⟩
    · simp only [_ymd2ord, _days_before_month]
      linear_combination hok5 + hcore + hdec
    · simp only [_days_in_month]
      by_cases hc2 : (_find_month (_is_leap (r / 36524 * 100 + r % 36524 / 1461 * 4
            + r % 36524 % 1461 / 365 + 1)) (r % 36524 % 1461 % 365)).1 = 2 ∧
          _is_leap (r / 36524 * 100 + r % 36524 / 1461 * 4 + r % 36524 % 1461 / 365 + 1) = true
      · simp only [if_pos hc2] at hok4 ⊢
        have h28 : _DAYS_IN_MONTH (_find_month (_is_leap (r / 36524 * 100
            + r % 36524 / 1461 * 4 + r % 36524 % 1461 / 365 + 1))
            (r % 36524 % 1461 % 365)).1 = 28 := by
          rw [hc2.1]; rfl
        omega
      · simp only [if_neg hc2] at hok4 ⊢
        omega

/-- Unfolding equation for `_days_in_month` in terms of the raw table and the
leap-year flag. -/
theorem _days_in_month_eq (y m : Int) :
    _days_in_month y m
      = _DAYS_IN_MONTH m + (if m = 2 ∧ _is_leap y = true then 1 else 0) := by
  simp only [_days_in_month]
  by_cases hc : m = 2 ∧ _is_leap y = true
  · rw [if_pos hc, if_pos hc]
    have h28 : _DAYS_IN_MONTH m = 28 := by rw [hc.1]; rfl
    omega
  · rw [if_neg hc, if_neg hc]
    omega

/-- Roundtrip and validity of the full `_ord2ymd`. -/
theorem _ord2ymd_spec (n : Int) : ∀ y m d, _ord2ymd n = (y, m, d) →
    _ymd2ord y m d = n ∧ 1 ≤ m ∧ m ≤ 12 ∧ 1 ≤ d ∧ d ≤ _days_in_month y m := by
  intro y m d heq
  simp only [_ord2ymd] at heq
  rcases hb : _ord2ymd_block ((n - 1) % 146097) with ⟨yb, mb, db⟩
  rw [hb] at heq
  rw [Prod.mk.injEq, Prod.mk.injEq] at heq
  obtain ⟨hy, hm, hd⟩ := heq
  subst hy; subst hm; subst hd
  obtain ⟨hrt, hy1, hy2, hm1, hm2, hd1, hd2⟩ :=
    _ord2ymd_block_spec ((n - 1) % 146097) (by omega) (by omega) yb mb db hb
  have harg : (n - 1) / 146097 * 400 + yb = 400 * ((n - 1) / 146097) + yb := by ring
  refine ⟨?_, hm1, hm2, hd1, ?_⟩
  · rw [harg, _ymd2ord_add_400, hrt]
    omega
  · have hdim : _days_in_month ((n - 1) / 146097 * 400 + yb) mb = _days_in_month yb mb := by
      simp only [_days_in_month_eq, harg, _is_leap_add_400]
    rw [hdim]
    exact hd2

/-- Bounds for the day-of-year of a valid month/day pair, as a finite check:
the day of year lies in `[0, 365]`, and it equals 365 only for December 31st
of a leap year. -/
def _month_day_nd_ok (ly : Bool) (m d : Int) : Bool :=
  if 1 ≤ d ∧ d ≤ _DAYS_IN_MONTH m + (if m = 2 ∧ ly = true then 1 else 0) then
    let nd := _DAYS_BEFORE_MONTH m + (if 2 < m ∧ ly = true then 1 else 0) + d - 1
    (0 ≤ nd && nd ≤ 365) && (nd != 365 || (ly && (m == 12) && (d == 31)))
  else true

set_option maxRecDepth 4000 in
theorem _month_day_nd_nat : ∀ m : Nat, m < 12 → ∀ d : Nat, d < 31 →
    (_month_day_nd_ok false ((m : Int) + 1) ((d : Int) + 1) = true ∧
     _month_day_nd_ok true ((m : Int) + 1) ((d : Int) + 1) = true) := by
  decide

theorem _month_day_nd_int (ly : Bool) (m d : Int)
    (hm1 : 1 ≤ m) (hm2 : m ≤ 12) (hd1 : 1 ≤ d)
    (hd2 : d ≤ _DAYS_IN_MONTH m + (if m = 2 ∧ ly = true then 1 else 0)) :
    0 ≤ _DAYS_BEFORE_MONTH m + (if 2 < m ∧ ly = true then 1 else 0) + d - 1 ∧
    _DAYS_BEFORE_MONTH m + (if 2 < m ∧ ly = true then 1 else 0) + d - 1 ≤ 365 ∧
    (_DAYS_BEFORE_MONTH m + (if 2 < m ∧ ly = true then 1 else 0) + d - 1 = 365 →
      ly = true ∧ m = 12 ∧ d = 31) := by
  have hdm : _DAYS_IN_MONTH m ≤ 31 := by
    unfold _DAYS_IN_MONTH
    repeat' split
    all_goals omega
  have hd31 : d ≤ 31 := by
    by_cases h2 : m = 2 ∧ ly = true
    · rw [if_pos h2] at hd2
      have h28 : _DAYS_IN_MONTH m = 28 := by rw [h2.1]; rfl
      omega
    · rw [if_neg h2] at hd2
      omega
  have h := _month_day_nd_nat (m - 1).toNat (by omega) (d - 1).toNat (by omega)
  have hmm : ((m - 1).toNat : Int) + 1 = m := by omega
  have hdd : ((d - 1).toNat : Int) + 1 = d := by omega
  rw [hmm, hdd] at h
  have h' : _month_day_nd_ok ly m d = true := by
    cases ly
    · exact h.1
    · exact h.2
  simp only [_month_day_nd_ok] at h'
  rw [if_pos (And.intro hd1 hd2)] at h'
  simp only [Bool.and_eq_true, Bool.or_eq_true, decide_eq_true_eq, beq_iff_eq,
    bne_iff_ne, ne_eq] at h'
  obtain ⟨⟨hh1, hh2⟩, hh3⟩ := h'
  refine ⟨hh1, hh2, ?_⟩
  intro h365
  rcases hh3 with h | h
  · exact absurd h365 h
  · exact ⟨h.1.1, h.1.2, h.2⟩

/-- Inverse roundtrip inside one 400-year cycle: `_ord2ymd_block` recovers a
valid date of a year in `[1, 400]` from its day index. -/
theorem _ord2ymd_block_inv (y m d : Int) (hy1 : 1 ≤ y) (hy2 : y ≤ 400)
    (hm1 : 1 ≤ m) (hm2 : m ≤ 12) (hd1 : 1 ≤ d) (hd2 : d ≤ _days_in_month y m) :
    _ord2ymd_block (_ymd2ord y m d - 1) = (y, m, d) := by
  rw [_days_in_month_eq] at hd2
  have hy' : y = (y - 1) / 100 * 100 + (y - 1) % 100 / 4 * 4 + (y - 1) % 100 % 4 + 1 := by
    omega
  have hdby := yearStage_core ((y - 1) / 100) ((y - 1) % 100 / 4) ((y - 1) % 100 % 4)
    (by omega) (by omega) (by omega) (by omega) (by omega) (by omega)
  rw [← hy'] at hdby
  have hLf := leapStage_core ((y - 1) / 100) ((y - 1) % 100 / 4) ((y - 1) % 100 % 4)
    (by omega) (by omega) (by omega) (by omega) (by omega) (by omega)
  rw [← hy'] at hLf
  obtain ⟨hnd0, hnd1, hnd365⟩ := _month_day_nd_int (_is_leap y) m d hm1 hm2 hd1 hd2
  have hR : _ymd2ord y m d - 1
      = 36524 * ((y - 1) / 100) + 1461 * ((y - 1) % 100 / 4) + 365 * ((y - 1) % 100 % 4)
        + (_DAYS_BEFORE_MONTH m + (if 2 < m ∧ _is_leap y = true then 1 else 0) + d - 1) := by
    simp only [_ymd2ord, _days_before_month]
    linear_combination hdby
  simp only [_ord2ymd_block]
  rw [hR]
  by_cases h365 : _DAYS_BEFORE_MONTH m + (if 2 < m ∧ _is_leap y = true then 1 else 0) + d - 1
      = 365
  · obtain ⟨hly, hm12, hd31⟩ := hnd365 h365
    subst hm12; subst hd31
    have hlf := (_is_leap_iff y).mp hly
    have ha3 : (y - 1) % 100 % 4 = 3 := by omega
    by_cases hc400 : y = 400
    · have hcb : (y - 1) / 100 = 3 ∧ (y - 1) % 100 / 4 = 24 := by omega
      rw [h365, ha3, hcb.1, hcb.2]
      norm_num
      subst hc400
      norm_num
    · have hb23 : (y - 1) % 100 / 4 ≤ 23 := by omega
      rw [h365, ha3]
      have e1 : (36524 * ((y - 1) / 100) + 1461 * ((y - 1) % 100 / 4) + 365 * 3 + 365)
          / 36524 = (y - 1) / 100 := by omega
      have e2 : (36524 * ((y - 1) / 100) + 1461 * ((y - 1) % 100 / 4) + 365 * 3 + 365)
          % 36524 = 1461 * ((y - 1) % 100 / 4) + 1460 := by omega
      have e3 : (1461 * ((y - 1) % 100 / 4) + 1460) / 1461 = (y - 1) % 100 / 4 := by omega
      have e4 : (1461 * ((y - 1) % 100 / 4) + 1460) % 1461 = 1460 := by omega
      rw [e1, e2, e3, e4]
      norm_num
      omega
  · have hnd364 : _DAYS_BEFORE_MONTH m + (if 2 < m ∧ _is_leap y = true then 1 else 0) + d - 1
        ≤ 364 := by omega
    have e1 : (36524 * ((y - 1) / 100) + 1461 * ((y - 1) % 100 / 4) + 365 * ((y - 1) % 100 % 4)
        + (_DAYS_BEFORE_MONTH m + (if 2 < m ∧ _is_leap y = true then 1 else 0) + d - 1))
        / 36524 = (y - 1) / 100 := by omega
    have e2 : (36524 * ((y - 1) / 100) + 1461 * ((y - 1) % 100 / 4) + 365 * ((y - 1) % 100 % 4)
        + (_DAYS_BEFORE_MONTH m + (if 2 < m ∧ _is_leap y = true then 1 else 0) + d - 1))
        % 36524
        = 1461 * ((y - 1) % 100 / 4) + 365 * ((y - 1) % 100 % 4)
          + (_DAYS_BEFORE_MONTH m + (if 2 < m ∧ _is_leap y = true then 1 else 0) + d - 1) := by
      omega
    have e3 : (1461 * ((y - 1) % 100 / 4) + 365 * ((y - 1) % 100 % 4)
        + (_DAYS_BEFORE_MONTH m + (if 2 < m ∧ _is_leap y = true then 1 else 0) + d - 1))
        / 1461 = (y - 1) % 100 / 4 := by omega
    have e4 : (1461 * ((y - 1) % 100 / 4) + 365 * ((y - 1) % 100 % 4)
        + (_DAYS_BEFORE_MONTH m + (if 2 < m ∧ _is_leap y = true then 1 else 0) + d - 1))
        % 1461
        = 365 * ((y - 1) % 100 % 4)
          + (_DAYS_BEFORE_MONTH m + (if 2 < m ∧ _is_leap y = true then 1 else 0) + d - 1) := by
      omega
    have e5 : (365 * ((y - 1) % 100 % 4)
        + (_DAYS_BEFORE_MONTH m + (if 2 < m ∧ _is_leap y = true then 1 else 0) + d - 1))
        / 365 = (y - 1) % 100 % 4 := by omega
    have e6 : (365 * ((y - 1) % 100 % 4)
        + (_DAYS_BEFORE_MONTH m + (if 2 < m ∧ _is_leap y = true then 1 else 0) + d - 1))
        % 365
        = _DAYS_BEFORE_MONTH m + (if 2 < m ∧ _is_leap y = true then 1 else 0) + d - 1 := by
      omega
    rw [e1, e2, e3, e4, e5, e6]
    rw [if_neg (by omega)]
    rw [hLf, ← hy']
    rw [_find_month_inv_int (_is_leap y) m d hm1 hm2 hd1 hd2]

/-- Bounds of `_ymd2ord` on one 400-year cycle. -/
theorem _ymd2ord_bounds (y m d : Int) (hy1 : 1 ≤ y) (hy2 : y ≤ 400)
    (hm1 : 1 ≤ m) (hm2 : m ≤ 12) (hd1 : 1 ≤ d) (hd2 : d ≤ _days_in_month y m) :
    1 ≤ _ymd2ord y m d ∧ _ymd2ord y m d ≤ 146097 := by
  rw [_days_in_month_eq] at hd2
  obtain ⟨hnd0, hnd1, hnd365⟩ := _month_day_nd_int (_is_leap y) m d hm1 hm2 hd1 hd2
  have hdby1 : 0 ≤ _days_before_year y := by
    simp only [_days_before_year]
    omega
  have hdby2 : _days_before_year y ≤ 145731 := by
    simp only [_days_before_year]
    omega
  simp only [_ymd2ord, _days_before_month]
  by_cases hly : _is_leap y = true
  · simp only [hly, eq_self_iff_true, and_true] at hnd0 hnd1 ⊢
    omega
  · have hly2 : _is_leap y = false := by rwa [Bool.not_eq_true] at hly
    simp only [hly2, Bool.false_eq_true, and_false, ite_false] at hnd0 hnd1 ⊢
    omega

/-- Full inverse roundtrip: `_ord2ymd` recovers any valid date from its
proleptic Gregorian ordinal. -/
theorem _ymd2ord_inv (y m d : Int)
    (hm1 : 1 ≤ m) (hm2 : m ≤ 12) (hd1 : 1 ≤ d) (hd2 : d ≤ _days_in_month y m) :
    _ord2ymd (_ymd2ord y m d) = (y, m, d) := by
  have hyb : y = 400 * ((y - 1) / 400) + ((y - 1) % 400 + 1) := by omega
  have hleq : _is_leap y = _is_leap ((y - 1) % 400 + 1) := by
    conv_lhs => rw [hyb]
    rw [_is_leap_add_400]
  have hdim : _days_in_month y m = _days_in_month ((y - 1) % 400 + 1) m := by
    rw [_days_in_month_eq, _days_in_month_eq, hleq]
  rw [hdim] at hd2
  have hsplit : _ymd2ord y m d
      = 146097 * ((y - 1) / 400) + _ymd2ord ((y - 1) % 400 + 1) m d := by
    conv_lhs => rw [hyb]
    rw [_ymd2ord_add_400]
  obtain ⟨hb1, hb2⟩ := _ymd2ord_bounds ((y - 1) % 400 + 1) m d
    (by omega) (by omega) hm1 hm2 hd1 hd2
  have hinv := _ord2ymd_block_inv ((y - 1) % 400 + 1) m d
    (by omega) (by omega) hm1 hm2 hd1 hd2
  simp only [_ord2ymd]
  rw [hsplit]
  have e1 : (146097 * ((y - 1) / 400) + _ymd2ord ((y - 1) % 400 + 1) m d - 1) / 146097
      = (y - 1) / 400 := by omega
  have e2 : (146097 * ((y - 1) / 400) + _ymd2ord ((y - 1) % 400 + 1) m d - 1) % 146097
      = _ymd2ord ((y - 1) % 400 + 1) m d - 1 := by omega
  rw [e1, e2, hinv]
  rw [Prod.mk.injEq, Prod.mk.injEq]
  refine ⟨by omega, rfl, rfl⟩

/-! ### Naive datetimes as seconds since the epoch

A naive `datetime` with whole seconds is represented by its signed second
count relative to 1970-01-01T00:00:00 (the ordinal of 1970-01-01 is 719163).
`TimeParts` models the library's `TimeParts` dataclass
(`src/python/zoned_time_lite/types.py`). -/

/-- Model of the `TimeParts` frozen dataclass: naive calendar components. -/
structure TimeParts where
  year : Int
  month : Int
  day : Int
  hour : Int
  minute : Int
  second : Int
deriving DecidableEq, Repr

theorem epoch_ord : _ymd2ord 1970 1 1 = 719163 := by decide

/-- Seconds since the epoch of a naive calendar reading (the inverse of the
field decomposition used by `datetime`). -/
def partsToSeconds (p : TimeParts) : Int :=
  (_ymd2ord p.year p.month p.day - 719163) * 86400
    + p.hour * 3600 + p.minute * 60 + p.second

/-- Calendar field decomposition of a naive epoch-second count, as performed
by `datetime` (year/month/day via `_ord2ymd`, then hour/minute/second from
the seconds of the day). -/
def secondsToParts (n : Int) : TimeParts :=
  let ymd := _ord2ymd (n / 86400 + 719163)
  let sod := n % 86400
  ⟨ymd.1, ymd.2.1, ymd.2.2, sod / 3600, sod % 3600 / 60, sod % 60⟩

/-- Composing a naive second count from its decomposed fields is the
identity. -/
theorem partsToSeconds_secondsToParts (n : Int) :
    partsToSeconds (secondsToParts n) = n := by
  rcases ho : _ord2ymd (n / 86400 + 719163) with ⟨y, m, d⟩
  obtain ⟨hrt, hm1, hm2, hd1, hd2⟩ := _ord2ymd_spec (n / 86400 + 719163) y m d ho
  simp only [partsToSeconds, secondsToParts, ho]
  rw [hrt]
  omega

/-- Decomposing the naive second count of valid calendar fields recovers the
fields. -/
theorem secondsToParts_partsToSeconds (p : TimeParts)
    (hm1 : 1 ≤ p.month) (hm2 : p.month ≤ 12) (hd1 : 1 ≤ p.day)
    (hd2 : p.day ≤ _days_in_month p.year p.month)
    (hh1 : 0 ≤ p.hour) (hh2 : p.hour ≤ 23)
    (hmi1 : 0 ≤ p.minute) (hmi2 : p.minute ≤ 59)
    (hs1 : 0 ≤ p.second) (hs2 : p.second ≤ 59) :
    secondsToParts (partsToSeconds p) = p := by
  obtain ⟨py, pm, pd, ph, pmi, ps⟩ := p
  simp only at hm1 hm2 hd1 hd2 hh1 hh2 hmi1 hmi2 hs1 hs2
  have hdiv : partsToSeconds ⟨py, pm, pd, ph, pmi, ps⟩ / 86400
      = _ymd2ord py pm pd - 719163 := by
    simp only [partsToSeconds]
    omega
  have hmod : partsToSeconds ⟨py, pm, pd, ph, pmi, ps⟩ % 86400
      = ph * 3600 + pmi * 60 + ps := by
    simp only [partsToSeconds]
    omega
  simp only [secondsToParts, hdiv, hmod]
  have harg : _ymd2ord py pm pd - 719163 + 719163 = _ymd2ord py pm pd := by omega
  rw [harg, _ymd2ord_inv py pm pd hm1 hm2 hd1 hd2]
  simp only [TimeParts.mk.injEq]
  refine ⟨trivial, trivial, trivial, by omega, by omega, by omega⟩

/-- The decomposition of any naive second count yields in-range calendar
fields. -/
theorem secondsToParts_valid (n : Int) :
    1 ≤ (secondsToParts n).month ∧ (secondsToParts n).month ≤ 12 ∧
    1 ≤ (secondsToParts n).day ∧
    (secondsToParts n).day ≤ _days_in_month (secondsToParts n).year (secondsToParts n).month ∧
    0 ≤ (secondsToParts n).hour ∧ (secondsToParts n).hour ≤ 23 ∧
    0 ≤ (secondsToParts n).minute ∧ (secondsToParts n).minute ≤ 59 ∧
    0 ≤ (secondsToParts n).second ∧ (secondsToParts n).second ≤ 59 := by
  rcases ho : _ord2ymd (n / 86400 + 719163) with ⟨y, m, d⟩
  obtain ⟨hrt, hm1, hm2, hd1, hd2⟩ := _ord2ymd_spec (n / 86400 + 719163) y m d ho
  simp only [secondsToParts, ho]
  refine ⟨hm1, hm2, hd1, hd2, by omega, by omega, by omega, by omega, by omega, by omega⟩

/-! ### Timezone model: `zoneinfo` as a step function with PEP 495 fold-0
localization

A platform timezone is modelled over a window of interest by its UTC offset
before the first listed transition and a time-ordered list of transitions,
as in a compiled IANA tzfile. `utcoffset` of an aware datetime looks up the
last transition at or before the instant; localizing a naive datetime with
`fold=0` (what `naive.replace(tzinfo=zone).astimezone(timezone.utc)` does)
applies PEP 495: a transition at UTC `t` from offset `o1` to `o2` takes
effect on the wall clock at `t + max o1 o2`, so below that boundary the
pre-transition offset applies — both inside a fall-back fold (first
occurrence) and inside a spring-forward gap. -/

/-- One offset transition: from UTC instant `time` (epoch seconds) on, the
zone's UTC offset is `off` seconds with DST flag `dst`. -/
structure Transition where
  time : Int
  off : Int
  dst : Bool
deriving DecidableEq, Repr

/-- Model of one `ZoneInfo` timezone over a window of interest. -/
structure Zone where
  baseOff : Int
  baseDst : Bool
  trans : List Transition
deriving DecidableEq, Repr

/-- Offset lookup over a transition list with initial offset `o`. -/
def offsetAtL (o : Int) (ts : List Transition) (u : Int) : Int :=
  ts.foldl (fun acc tr => if tr.time ≤ u then tr.off else acc) o

/-- UTC offset (seconds) in force at UTC instant `u` (`ZoneInfo.utcoffset`
of an aware datetime). -/
def offsetAt (z : Zone) (u : Int) : Int := offsetAtL z.baseOff z.trans u

/-- DST flag in force at UTC instant `u` (`ZoneInfo.dst(...) > 0` for an
aware datetime). -/
def dstAt (z : Zone) (u : Int) : Bool :=
  z.trans.foldl (fun acc tr => if tr.time ≤ u then tr.dst else acc) z.baseDst

/-- PEP 495 fold-0 offset lookup over a transition list: the wall-clock
boundary of a transition is its UTC time plus the larger of the surrounding
offsets. -/
def localOffsetFold0L (o : Int) (ts : List Transition) (L : Int) : Int :=
  ts.foldl (fun acc tr => if tr.time + max acc tr.off ≤ L then tr.off else acc) o

/-- PEP 495 fold-0 offset of a zone for the naive wall-clock reading `L`. -/
def localOffsetFold0 (z : Zone) (L : Int) : Int := localOffsetFold0L z.baseOff z.trans L

/-- PEP 495 fold-1 offset (second occurrence in a fold, post-transition
offset in a gap): the wall-clock boundary uses the smaller offset. -/
def localOffsetFold1 (z : Zone) (L : Int) : Int :=
  z.trans.foldl (fun acc tr => if tr.time + min acc tr.off ≤ L then tr.off else acc) z.baseOff

/-- `u` is an occurrence of the wall-clock reading `L` in zone `z`:
converting the instant `u` to local time reads `L`. -/
def isOccurrence (z : Zone) (L u : Int) : Prop := u + offsetAt z u = L

instance (z : Zone) (L u : Int) : Decidable (isOccurrence z L u) := by
  unfold isOccurrence
  infer_instance

/-- All offsets a zone can ever report. -/
def offsetCands (z : Zone) : List Int := z.baseOff :: z.trans.map Transition.off

/-- The offsets under which the wall-clock reading `L` actually occurs. -/
def occOffsets (z : Zone) (L : Int) : List Int :=
  (offsetCands z).filter (fun o => decide (offsetAt z (L - o) = o))

/-- Decidable test: some UTC instant reads `L` on the wall clock of `z`
(false exactly inside spring-forward gaps). -/
def occursInZone (z : Zone) (L : Int) : Bool := !(occOffsets z L).isEmpty

/-- Separation of consecutive transitions: the wall-clock fold or gap
interval of one transition ends before that of the next begins. Every real
IANA zone satisfies this: transitions are months apart while offsets differ
by at most a few hours. -/
def chainSep : Int → List Transition → Bool
  | _, [] => true
  | _, [_] => true
  | o, tr :: tr2 :: rest =>
    (decide (tr.time + max o tr.off < tr2.time + min tr.off tr2.off))
      && chainSep tr.off (tr2 :: rest)

/-- Well-formed zone: separated transition chain. -/
def Zone.wf (z : Zone) : Bool := chainSep z.baseOff z.trans

theorem chainSep_tail {o : Int} {tr : Transition} {rest : List Transition}
    (h : chainSep o (tr :: rest) = true) : chainSep tr.off rest = true := by
  cases rest with
  | nil => rfl
  | cons tr2 rest2 =>
    simp only [chainSep, Bool.and_eq_true] at h
    exact h.2

theorem chain_lb {o : Int} {tr : Transition} {rest : List Transition}
    (h : chainSep o (tr :: rest) = true) :
    ∀ tr' ∈ rest, tr.time + max o tr.off < tr'.time + tr'.off := by
  induction rest generalizing o tr with
  | nil => intro tr' h'; cases h'
  | cons tr2 rest2 ih =>
    intro tr' h'
    simp only [chainSep, Bool.and_eq_true, decide_eq_true_eq] at h
    rcases List.mem_cons.mp h' with h2 | h2
    · subst h2
      have : min tr.off tr'.off ≤ tr'.off := min_le_right _ _
      omega
    · have h3 := ih h.2 tr' h2
      have hmm : min tr.off tr2.off ≤ max tr.off tr2.off :=
        le_trans (min_le_left _ _) (le_max_left _ _)
      omega

theorem chain_times {o : Int} {tr : Transition} {rest : List Transition}
    (h : chainSep o (tr :: rest) = true) :
    ∀ tr' ∈ rest, tr.time < tr'.time := by
  induction rest generalizing o tr with
  | nil => intro tr' hmem; cases hmem
  | cons tr2 rest2 ih =>
    intro tr' hmem
    simp only [chainSep, Bool.and_eq_true, decide_eq_true_eq] at h
    have h12 : tr.time < tr2.time := by
      have h1 : tr.off ≤ max o tr.off := le_max_right _ _
      have h2 : min tr.off tr2.off ≤ tr.off := min_le_left _ _
      omega
    rcases List.mem_cons.mp hmem with h3 | h3
    · rw [h3]; exact h12
    · have h4 := ih (show chainSep tr.off (tr2 :: rest2) = true from h.2) tr' h3
      omega

theorem offsetAtL_stay {o : Int} {ts : List Transition} {u : Int}
    (h : ∀ tr ∈ ts, u < tr.time) : offsetAtL o ts u = o := by
  induction ts generalizing o with
  | nil => rfl
  | cons tr rest ih =>
    simp only [offsetAtL, List.foldl_cons]
    rw [if_neg (by have := h tr (List.mem_cons_self _ _); omega)]
    exact ih (fun tr' h' => h tr' (List.mem_cons_of_mem _ h'))

theorem offsetAtL_cons_ge {o : Int} {tr : Transition} {rest : List Transition} {u : Int}
    (h : tr.time ≤ u) : offsetAtL o (tr :: rest) u = offsetAtL tr.off rest u := by
  simp only [offsetAtL, List.foldl_cons, if_pos h]

theorem offsetAtL_cons_lt {o : Int} {tr : Transition} {rest : List Transition} {u : Int}
    (h : u < tr.time) : offsetAtL o (tr :: rest) u = offsetAtL o rest u := by
  simp only [offsetAtL, List.foldl_cons]
  rw [if_neg (by omega)]

theorem fold0L_stay {o : Int} {ts : List Transition} {L : Int}
    (h : ∀ tr ∈ ts, L < tr.time + tr.off) : localOffsetFold0L o ts L = o := by
  induction ts generalizing o with
  | nil => rfl
  | cons tr rest ih =>
    simp only [localOffsetFold0L, List.foldl_cons]
    rw [if_neg (by
      have h1 := h tr (List.mem_cons_self _ _)
      have h2 : tr.off ≤ max o tr.off := le_max_right _ _
      omega)]
    exact ih (fun tr' h' => h tr' (List.mem_cons_of_mem _ h'))

theorem fold0L_cons_ge {o : Int} {tr : Transition} {rest : List Transition} {L : Int}
    (h : tr.time + max o tr.off ≤ L) :
    localOffsetFold0L o (tr :: rest) L = localOffsetFold0L tr.off rest L := by
  simp only [localOffsetFold0L, List.foldl_cons, if_pos h]

theorem fold0L_cons_lt {o : Int} {tr : Transition} {rest : List Transition} {L : Int}
    (h : ¬ (tr.time + max o tr.off ≤ L)) :
    localOffsetFold0L o (tr :: rest) L = localOffsetFold0L o rest L := by
  simp only [localOffsetFold0L, List.foldl_cons]
  rw [if_neg h]

theorem offsetAtL_charac (o : Int) (ts : List Transition) (u : Int) :
    offsetAtL o ts u = o ∨ ∃ tr ∈ ts, tr.time ≤ u ∧ offsetAtL o ts u = tr.off := by
  induction ts generalizing o with
  | nil => left; rfl
  | cons tr rest ih =>
    by_cases h : tr.time ≤ u
    · rw [offsetAtL_cons_ge h]
      rcases ih tr.off with h1 | ⟨tr', hmem, hle, heq⟩
      · right; exact ⟨tr, List.mem_cons_self _ _, h, h1⟩
      · right; exact ⟨tr', List.mem_cons_of_mem _ hmem, hle, heq⟩
    · rw [offsetAtL_cons_lt (by omega)]
      rcases ih o with h1 | ⟨tr', hmem, hle, heq⟩
      · left; exact h1
      · right; exact ⟨tr', List.mem_cons_of_mem _ hmem, hle, heq⟩

theorem offsetAtL_mem (o : Int) (ts : List Transition) (u : Int) :
    offsetAtL o ts u ∈ o :: ts.map Transition.off := by
  rcases offsetAtL_charac o ts u with h | ⟨tr, hmem, _, heq⟩
  · rw [h]; exact List.mem_cons_self _ _
  · rw [heq]; exact List.mem_cons_of_mem _ (List.mem_map_of_mem _ hmem)

/-- PEP 495 fold-0 localization returns the earliest occurrence: whenever
the wall-clock reading `L` occurs at all in a zone with separated
transitions, `L` minus the fold-0 offset is an occurrence of `L`, and it is
the least one. -/
theorem fold0L_least (ts : List Transition) (o L : Int)
    (hwf : chainSep o ts = true)
    (hocc : ∃ u, u + offsetAtL o ts u = L) :
    (L - localOffsetFold0L o ts L) + offsetAtL o ts (L - localOffsetFold0L o ts L) = L ∧
    ∀ u, u + offsetAtL o ts u = L → L - localOffsetFold0L o ts L ≤ u := by
  induction ts generalizing o with
  | nil =>
    simp only [offsetAtL, localOffsetFold0L, List.foldl_nil]
    exact ⟨by omega, fun v hv => by omega⟩
  | cons tr rest ih =>
    have htail := chainSep_tail hwf
    have hmax1 : o ≤ max o tr.off := le_max_left _ _
    have hmax2 : tr.off ≤ max o tr.off := le_max_right _ _
    by_cases hB : tr.time + max o tr.off ≤ L
    · rw [fold0L_cons_ge hB]
      have htrans : ∀ u, (u + offsetAtL o (tr :: rest) u = L
          ↔ u + offsetAtL tr.off rest u = L) := by
        intro u
        by_cases hu : tr.time ≤ u
        · rw [offsetAtL_cons_ge hu]
        · rw [offsetAtL_cons_lt (by omega)]
          have hstay_full : offsetAtL o rest u = o := offsetAtL_stay (fun tr' h' => by
            have := chain_times hwf tr' h'
            omega)
          have hstay_tail : offsetAtL tr.off rest u = tr.off := offsetAtL_stay (fun tr' h' => by
            have := chain_times hwf tr' h'
            omega)
          rw [hstay_full, hstay_tail]
          constructor
          · intro h1; omega
          · intro h1; omega
      obtain ⟨hocc_r, hleast⟩ := ih tr.off htail (by
        obtain ⟨u, hu⟩ := hocc
        exact ⟨u, (htrans u).mp hu⟩)
      exact ⟨(htrans _).mpr hocc_r, fun u hu => hleast u ((htrans u).mp hu)⟩
    · rw [fold0L_cons_lt hB]
      have hstay0 : localOffsetFold0L o rest L = o := fold0L_stay (fun tr' h' => by
        have := chain_lb hwf tr' h'
        omega)
      rw [hstay0]
      by_cases hpre : L - o < tr.time
      · have hoccr : (L - o) + offsetAtL o (tr :: rest) (L - o) = L := by
          rw [offsetAtL_cons_lt (by omega)]
          rw [offsetAtL_stay (fun tr' h' => by
            have := chain_times hwf tr' h'
            omega)]
          omega
        refine ⟨hoccr, ?_⟩
        intro u hu
        by_cases hu2 : tr.time ≤ u
        · rw [offsetAtL_cons_ge hu2] at hu
          rcases offsetAtL_charac tr.off rest u with hch | ⟨tr', hmem, hle, heq⟩
          · rw [hch] at hu
            rcases max_choice o tr.off with hmx | hmx <;> omega
          · rw [heq] at hu
            have := chain_lb hwf tr' hmem
            omega
        · rw [offsetAtL_cons_lt (by omega)] at hu
          rw [offsetAtL_stay (fun tr' h' => by
            have := chain_times hwf tr' h'
            omega)] at hu
          omega
      · exfalso
        obtain ⟨u, hu⟩ := hocc
        by_cases hu2 : tr.time ≤ u
        · rw [offsetAtL_cons_ge hu2] at hu
          rcases offsetAtL_charac tr.off rest u with hch | ⟨tr', hmem, hle, heq⟩
          · rw [hch] at hu
            rcases max_choice o tr.off with hmx | hmx <;> omega
          · rw [heq] at hu
            have := chain_lb hwf tr' hmem
            omega
        · rw [offsetAtL_cons_lt (by omega)] at hu
          rw [offsetAtL_stay (fun tr' h' => by
            have := chain_times hwf tr' h'
            omega)] at hu
          omega

theorem occOffsets_mem_iff {z : Zone} {L o : Int} :
    o ∈ occOffsets z L ↔ o ∈ offsetCands z ∧ offsetAt z (L - o) = o := by
  simp [occOffsets, List.mem_filter]

/-- Every occurrence of `L` is reached through one of the zone's candidate
offsets. -/
theorem occurrence_offset_mem {z : Zone} {L u : Int} (h : isOccurrence z L u) :
    (L - u) ∈ occOffsets z L := by
  unfold isOccurrence at h
  have heq : offsetAt z u = L - u := by omega
  rw [occOffsets_mem_iff]
  constructor
  · rw [← heq]
    exact offsetAtL_mem z.baseOff z.trans u
  · have harg : L - (L - u) = u := by omega
    rw [harg, heq]

theorem occursInZone_iff {z : Zone} {L : Int} :
    occursInZone z L = true ↔ ∃ u, isOccurrence z L u := by
  constructor
  · intro h
    unfold occursInZone at h
    have hne : occOffsets z L ≠ [] := by
      intro hcon
      rw [hcon] at h
      simp at h
    obtain ⟨o, ho⟩ := List.exists_mem_of_ne_nil _ hne
    rw [occOffsets_mem_iff] at ho
    refine ⟨L - o, ?_⟩
    unfold isOccurrence
    rw [ho.2]
    omega
  · rintro ⟨u, hu⟩
    have hmem := occurrence_offset_mem hu
    unfold occursInZone
    have hne := List.ne_nil_of_mem hmem
    cases hl : occOffsets z L with
    | nil => exact absurd hl hne
    | cons a as => simp

/-- Zone-level form of the PEP 495 fold-0 minimality property. -/
theorem fold0_least_zone (z : Zone) (L : Int) (hwf : z.wf = true)
    (hocc : occursInZone z L = true) :
    isOccurrence z L (L - localOffsetFold0 z L) ∧
    ∀ u, isOccurrence z L u → L - localOffsetFold0 z L ≤ u := by
  obtain ⟨u, hu⟩ := occursInZone_iff.mp hocc
  have h := fold0L_least z.trans z.baseOff L hwf ⟨u, hu⟩
  exact h

/-! ### Library embedding

The embedding of `zoned_time_lite` itself: error kinds, the static registry
(`timezone_registry.py`), the validators (`validator.py`), and the
converters (`time_converter.py`, `dst_detector.py`, `working_hours.py`).
Python `ValueError`s become `Except Err`. -/

/-- Model of an aware UTC `datetime`: whole seconds since the epoch plus the
microsecond component (`0 ≤ usec < 1000000` for values produced by
`datetime`). -/
structure Instant where
  sec : Int
  usec : Int
deriving DecidableEq, Repr

/-- Kinds of `ValueError` the library raises, by failure site. -/
inductive Err
  | invalidDate
  | invalidTimezone
  | unsupportedTimezone
  | platformUnavailable
  | invalidTimeParts
  | unresolvableCivilTime
  | invalidWorkingHours
  | yearOutOfRange
deriving DecidableEq, Repr

/-- Model of the platform IANA timezone database (`zoneinfo`) over a
2023-2025 window, with offsets per the published IANA rules (EU zones
switch on the last Sunday of March and October at 01:00 UTC; US zones on
the second Sunday of March and first Sunday of November at 02:00 local;
Australia/Sydney on the first Sunday of April and of October; Asia/Tokyo is
fixed UTC+9). The platform database recognizes more identifiers than the
library's registry — `Europe/Madrid` stands in for those. The individual
zone windows follow; `platformZones` is the database itself. -/
def londonZone : Zone := ⟨0, false, [
  ⟨1679792400, 3600, true⟩, ⟨1698541200, 0, false⟩,
  ⟨1711846800, 3600, true⟩, ⟨1729990800, 0, false⟩,
  ⟨1743296400, 3600, true⟩, ⟨1761440400, 0, false⟩]⟩

/-- Central European Time window (Paris, Berlin, Madrid share it). -/
def cetZone : Zone := ⟨3600, false, [
  ⟨1679792400, 7200, true⟩, ⟨1698541200, 3600, false⟩,
  ⟨1711846800, 7200, true⟩, ⟨1729990800, 3600, false⟩,
  ⟨1743296400, 7200, true⟩, ⟨1761440400, 3600, false⟩]⟩

def newYorkZone : Zone := ⟨-18000, false, [
  ⟨1678604400, -14400, true⟩, ⟨1699164000, -18000, false⟩,
  ⟨1710054000, -14400, true⟩, ⟨1730613600, -18000, false⟩,
  ⟨1741503600, -14400, true⟩, ⟨1762063200, -18000, false⟩]⟩

def losAngelesZone : Zone := ⟨-28800, false, [
  ⟨1678615200, -25200, true⟩, ⟨1699174800, -28800, false⟩,
  ⟨1710064800, -25200, true⟩, ⟨1730624400, -28800, false⟩,
  ⟨1741514400, -25200, true⟩, ⟨1762074000, -28800, false⟩]⟩

def tokyoZone : Zone := ⟨32400, false, []⟩

def sydneyZone : Zone := ⟨39600, true, [
  ⟨1680364800, 36000, false⟩, ⟨1696089600, 39600, true⟩,
  ⟨1712419200, 36000, false⟩, ⟨1728144000, 39600, true⟩,
  ⟨1743868800, 36000, false⟩, ⟨1759593600, 39600, true⟩]⟩

def platformZones : List (String × Zone) := [
  ("Europe/London", londonZone),
  ("Europe/Paris", cetZone),
  ("Europe/Berlin", cetZone),
  ("Europe/Madrid", cetZone),
  ("America/New_York", newYorkZone),
  ("America/Los_Angeles", losAngelesZone),
  ("Asia/Tokyo", tokyoZone),
  ("Australia/Sydney", sydneyZone)]

/-- Lookup in the platform database (`ZoneInfo(tz)` resolution). -/
def platform_zone (tz : String) : Option Zone :=
  (platformZones.find? (fun p => p.1 == tz)).map Prod.snd

/-- Model of `zoneinfo.available_timezones()` restricted to the window. -/
def available_timezones : List String := platformZones.map Prod.fst

/-- Model of the `PreferredAbbreviations` dataclass. -/
structure PreferredAbbreviations where
  standard : String
  dst : Option String := none
deriving DecidableEq, Repr

/-- Model of the `TimezoneMetadata` dataclass. -/
structure TimezoneMetadata where
  id : String
  standard_offset : Int
  dst_offset : Option Int := none
  preferred_abbreviations : Option PreferredAbbreviations := none
  fallback_format : String := "UTC{offset}"
deriving DecidableEq, Repr

/-- Model of `TIMEZONE_REGISTRY` (`timezone_registry.py`): the seven
supported timezones and their display metadata. -/
def TIMEZONE_REGISTRY : List (String × TimezoneMetadata) := [
  ("Europe/London",
    ⟨"Europe/London", 0, some 60, some ⟨"GMT", some "BST"⟩, "GMT{offset}"⟩),
  ("America/New_York",
    ⟨"America/New_York", -300, some (-240), some ⟨"EST", some "EDT"⟩, "GMT{offset}"⟩),
  ("America/Los_Angeles",
    ⟨"America/Los_Angeles", -480, some (-420), some ⟨"PST", some "PDT"⟩, "GMT{offset}"⟩),
  ("Europe/Paris",
    ⟨"Europe/Paris", 60, some 120, some ⟨"CET", some "CEST"⟩, "GMT{offset}"⟩),
  ("Europe/Berlin",
    ⟨"Europe/Berlin", 60, some 120, some ⟨"CET", some "CEST"⟩, "GMT{offset}"⟩),
  ("Asia/Tokyo",
    ⟨"Asia/Tokyo", 540, none, none, "GMT{offset}"⟩),
  ("Australia/Sydney",
    ⟨"Australia/Sydney", 600, some 660, some ⟨"AEST", some "AEDT"⟩, "GMT{offset}"⟩)]

/-- Model of `validate_timezone` (`validator.py`): non-blank and containing
a slash; the `isinstance` check is subsumed by typing. -/
def validate_timezone (timezone : String) : Except Err Unit :=
  if timezone.toList.all Char.isWhitespace then .error .invalidTimezone
  else if !(timezone.toList.contains '/') then .error .invalidTimezone
  else .ok ()

/-- Model of `validate_date`: for an aware UTC `datetime` neither the NaT
check nor the `timestamp()` probe can fail, so validation succeeds. -/
def validate_date (_date : Instant) : Except Err Unit := .ok ()

/-- Model of `validate_year` (`validator.py` lines 12-28): the supported
range is 1970-2100. -/
def validate_year (year : Int) : Except Err Unit :=
  if year < 1970 ∨ 2100 < year then .error .yearOutOfRange else .ok ()

/-- Model of `validate_time_parts` (`validator.py` lines 87-113). The only
check on the year is `year < 1`; the 1970-2100 range documented in the
library (and enforced by `validate_year`) is not checked here. -/
def validate_time_parts (p : TimeParts) : Except Err Unit :=
  if p.year < 1 then .error .invalidTimeParts
  else if p.month < 1 ∨ 12 < p.month then .error .invalidTimeParts
  else if p.day < 1 ∨ 31 < p.day then .error .invalidTimeParts
  else if p.hour < 0 ∨ 23 < p.hour then .error .invalidTimeParts
  else if p.minute < 0 ∨ 59 < p.minute then .error .invalidTimeParts
  else if p.second < 0 ∨ 59 < p.second then .error .invalidTimeParts
  else .ok ()

/-- Model of `get_timezone_metadata`: format check, then registry lookup;
identifiers outside the registry fail as unsupported. -/
def get_timezone_metadata (timezone : String) : Except Err TimezoneMetadata := do
  validate_timezone timezone
  match TIMEZONE_REGISTRY.find? (fun p => p.1 == timezone) with
  | some p => .ok p.2
  | none => .error .unsupportedTimezone

/-- Model of `is_supported_timezone`. -/
def is_supported_timezone (timezone : String) : Bool :=
  (TIMEZONE_REGISTRY.find? (fun p => p.1 == timezone)).isSome

/-- Model of `validate_platform_timezone`: `ZoneInfo(tz)` resolves and the
identifier is listed by `available_timezones()`. Registry membership is NOT
checked here. -/
def validate_platform_timezone (timezone : String) : Except Err Unit :=
  match platform_zone timezone with
  | some _ => .ok ()
  | none => .error .platformUnavailable

/-- Model of `naive.replace(tzinfo=zone).astimezone(timezone.utc)` on a
naive wall-clock reading (epoch seconds): PEP 495 fold-0 localization.
Under `zoneinfo` this never raises — gap and fold readings are mapped with
the fold-0 offset — so the result is always `some`; the `Option` mirrors
the `try`/`except` structure of the caller. -/
def py_localize_fold0 (z : Zone) (L : Int) : Option Int :=
  some (L - localOffsetFold0 z L)

/-- Model of the `fold=1` localization attempt (also total). -/
def py_localize_fold1 (z : Zone) (L : Int) : Option Int :=
  some (L - localOffsetFold1 z L)

/-- Model of the `datetime(year, month, day, hour, minute, second)`
constructor call in `from_timezone_parts`: `ValueError` when a field is out
of the constructor's range (notably a day beyond the month length, or a
year outside `[1, 9999]`). -/
def mkNaive (p : TimeParts) : Option Int :=
  if 1 ≤ p.year ∧ p.year ≤ 9999 ∧ 1 ≤ p.month ∧ p.month ≤ 12 ∧
      1 ≤ p.day ∧ p.day ≤ _days_in_month p.year p.month ∧
      0 ≤ p.hour ∧ p.hour ≤ 23 ∧ 0 ≤ p.minute ∧ p.minute ≤ 59 ∧
      0 ≤ p.second ∧ p.second ≤ 59 then
    some (partsToSeconds p)
  else none

/-- Model of the fallback search in `from_timezone_parts`
(`time_converter.py` lines 169-195): forward in 1-minute steps up to 3
hours, then backward likewise, then `UnresolvableCivilTime`. Dead code in
the model because localization is total. -/
def gap_search (z : Zone) (L : Int) : Except Err Instant :=
  match (List.range 180).findSome? (fun k => py_localize_fold0 z (L + 60 * ((k : Int) + 1))) with
  | some u => .ok ⟨u, 0⟩
  | none =>
    match (List.range 180).findSome? (fun k => py_localize_fold0 z (L - 60 * ((k : Int) + 1))) with
    | some u => .ok ⟨u, 0⟩
    | none => .error .unresolvableCivilTime

/-- Model of `from_timezone_parts` (`time_converter.py` lines 93-200):
validate, build the naive datetime, attach the zone and convert to UTC with
`fold=0`; were that to fail, try `fold=1` and then the minute search. -/
def from_timezone_parts (parts : TimeParts) (tz : String) : Except Err Instant := do
  validate_time_parts parts
  validate_timezone tz
  validate_platform_timezone tz
  match platform_zone tz with
  | none => .error .platformUnavailable
  | some z =>
    match mkNaive parts with
    | none => .error .invalidTimeParts
    | some L =>
      match py_localize_fold0 z L with
      | some u => .ok ⟨u, 0⟩
      | none =>
        match py_localize_fold1 z L with
        | some u => .ok ⟨u, 0⟩
        | none => gap_search z L

/-- Model of `to_timezone_parts` (`time_converter.py` lines 14-61):
validate, shift the instant by the zone offset in force, decompose into
calendar fields (the microsecond component has no `TimeParts` field and is
dropped). -/
def to_timezone_parts (date : Instant) (tz : String) : Except Err TimeParts := do
  validate_date date
  validate_timezone tz
  validate_platform_timezone tz
  match platform_zone tz with
  | none => .error .platformUnavailable
  | some z => .ok (secondsToParts (date.sec + offsetAt z date.sec))

/-- Model of `to_london_parts`. -/
def to_london_parts (date : Instant) : Except Err TimeParts :=
  to_timezone_parts date "Europe/London"

/-- Model of `from_london_parts`. -/
def from_london_parts (parts : TimeParts) : Except Err Instant :=
  from_timezone_parts parts "Europe/London"

/-- Model of `is_dst` (`dst_detector.py` lines 18-67): registry metadata is
consulted; a zone without a registered `dst_offset` is never in DST;
otherwise the platform zone's DST component at the instant decides. -/
def is_dst (date : Instant) (tz : String) : Except Err Bool := do
  validate_date date
  validate_timezone tz
  let md ← get_timezone_metadata tz
  validate_platform_timezone tz
  if md.dst_offset.isNone then
    .ok false
  else
    match platform_zone tz with
    | none => .error .platformUnavailable
    | some z => .ok (dstAt z date.sec)

/-- Model of a well-formed `HH:MM` time string: its hour and minute
fields. -/
structure TimeHM where
  hour : Int
  minute : Int
deriving DecidableEq, Repr

/-- Model of `validate_working_hours` (`validator.py` lines 115-169): field
ranges, then the requirement that start is strictly before end in minutes
since midnight. -/
def validate_working_hours (start endT : TimeHM) : Except Err Unit :=
  if start.hour < 0 ∨ 23 < start.hour then .error .invalidWorkingHours
  else if start.minute < 0 ∨ 59 < start.minute then .error .invalidWorkingHours
  else if endT.hour < 0 ∨ 23 < endT.hour then .error .invalidWorkingHours
  else if endT.minute < 0 ∨ 59 < endT.minute then .error .invalidWorkingHours
  else if start.hour * 60 + start.minute ≥ endT.hour * 60 + endT.minute then
    .error .invalidWorkingHours
  else .ok ()

/-- Model of `in_working_hours` (`working_hours.py` lines 14-80): validate,
convert the instant to local time, compare minutes since midnight. The
`start_minutes ≤ end_minutes` branch is the same-day window; the other
branch is the midnight-spanning window. -/
def in_working_hours (date : Instant) (tz : String) (start endT : TimeHM) :
    Except Err Bool := do
  validate_date date
  validate_timezone tz
  validate_working_hours start endT
  validate_platform_timezone tz
  let lp ← to_timezone_parts date tz
  let current_minutes := lp.hour * 60 + lp.minute
  let start_minutes := start.hour * 60 + start.minute
  let end_minutes := endT.hour * 60 + endT.minute
  if start_minutes ≤ end_minutes then
    .ok (decide (start_minutes ≤ current_minutes ∧ current_minutes ≤ end_minutes))
  else
    .ok (decide (current_minutes ≥ start_minutes ∨ current_minutes ≤ end_minutes))

/-- Modelled from the spec: minute-or-better bisection step of the
transition search (spec section 4.2, step 2). Given a bracketing interval
with the old DST value at `lo` and the new value at `hi`, narrow to the
side containing the flip until the width is one second, and return the
earliest instant holding the post-flip value. -/
def bisect_flip (z : Zone) : Int → Int → Nat → Int
  | _, hi, 0 => hi
  | lo, hi, fuel + 1 =>
    if hi - lo ≤ 1 then hi
    else
      let mid := (lo + hi) / 2
      if dstAt z mid == dstAt z hi then bisect_flip z lo mid fuel
      else bisect_flip z mid hi fuel

/-- Modelled from the spec: coarse day-granularity scan of the transition
search (spec section 4.2, step 1): find the first day interval across which
`is_dst` flips to `target`. -/
def day_scan (z : Zone) (startS : Int) (count : Nat) (target : Bool) : Option Int :=
  ((List.range count).find? (fun k =>
    dstAt z (startS + 86400 * (k : Int)) != target &&
    dstAt z (startS + 86400 * ((k : Int) + 1)) == target)).map
    (fun k => startS + 86400 * (k : Int))

/-- Modelled from the spec: `transitions_for_year`, exported as
`dst_transition_dates`. The repository's `dst_transitions` module (imported
by `__init__.py` lines 56-61) is not present under `src/`, so this follows
spec section 4.2: validate the year (1970-2100, `YearOutOfRange`) and
timezone; a timezone with no registered DST offset has no transitions;
otherwise sample `is_dst` at day granularity over the year padded by one
day on each side, locate the false→true (start) and true→false (end)
brackets, and bisect each to the exact transition instant — the first
instant of the new regime. -/
def dst_transition_dates (year : Int) (tz : String) :
    Except Err (Option (Instant × Instant)) := do
  validate_year year
  validate_timezone tz
  let md ← get_timezone_metadata tz
  validate_platform_timezone tz
  if md.dst_offset.isNone then
    .ok none
  else
    match platform_zone tz with
    | none => .error .platformUnavailable
    | some z =>
      let startS := partsToSeconds ⟨year, 1, 1, 0, 0, 0⟩ - 86400
      let count := (if _is_leap year = true then 366 else 365) + 2
      match day_scan z startS count true, day_scan z startS count false with
      | some lo1, some lo2 =>
        .ok (some (⟨bisect_flip z lo1 (lo1 + 86400) 32, 0⟩,
                   ⟨bisect_flip z lo2 (lo2 + 86400) 32, 0⟩))
      | _, _ => .ok none

instance {ε α : Type} [DecidableEq ε] [DecidableEq α] : DecidableEq (Except ε α) := fun a b =>
  match a, b with
  | .ok x, .ok y => decidable_of_iff (x = y) (by simp)
  | .ok _, .error _ => isFalse (fun h => by cases h)
  | .error _, .ok _ => isFalse (fun h => by cases h)
  | .error x, .error y => decidable_of_iff (x = y) (by simp)

/-! ### Evaluation lemmas for the converter pipelines -/

theorem validate_time_parts_ok {p : TimeParts} (h : validate_time_parts p = .ok ()) :
    1 ≤ p.year ∧ 1 ≤ p.month ∧ p.month ≤ 12 ∧ 1 ≤ p.day ∧ p.day ≤ 31 ∧
    0 ≤ p.hour ∧ p.hour ≤ 23 ∧ 0 ≤ p.minute ∧ p.minute ≤ 59 ∧
    0 ≤ p.second ∧ p.second ≤ 59 := by
  unfold validate_time_parts at h
  repeat' split at h
  all_goals try simp at h
  omega

theorem mkNaive_some {p : TimeParts} {L : Int} (h : mkNaive p = some L) :
    partsToSeconds p = L ∧ 1 ≤ p.year ∧ p.year ≤ 9999 ∧ 1 ≤ p.month ∧ p.month ≤ 12 ∧
    1 ≤ p.day ∧ p.day ≤ _days_in_month p.year p.month ∧
    0 ≤ p.hour ∧ p.hour ≤ 23 ∧ 0 ≤ p.minute ∧ p.minute ≤ 59 ∧
    0 ≤ p.second ∧ p.second ≤ 59 := by
  unfold mkNaive at h
  split at h
  · rename_i hc
    injection h with h
    exact ⟨h, hc.1, hc.2.1, hc.2.2.1, hc.2.2.2.1, hc.2.2.2.2.1, hc.2.2.2.2.2.1,
      hc.2.2.2.2.2.2.1, hc.2.2.2.2.2.2.2.1, hc.2.2.2.2.2.2.2.2.1,
      hc.2.2.2.2.2.2.2.2.2.1, hc.2.2.2.2.2.2.2.2.2.2.1, hc.2.2.2.2.2.2.2.2.2.2.2⟩
  · cases h

/-- Evaluation of `from_timezone_parts` when every validation passes:
PEP 495 fold-0 localization, microseconds zero. -/
theorem from_timezone_parts_eval {p : TimeParts} {tz : String} {z : Zone} {L : Int}
    (hv : validate_time_parts p = .ok ()) (hft : validate_timezone tz = .ok ())
    (hz : platform_zone tz = some z) (hmk : mkNaive p = some L) :
    from_timezone_parts p tz = .ok ⟨L - localOffsetFold0 z L, 0⟩ := by
  simp only [from_timezone_parts, validate_platform_timezone, hv, hft, hz, hmk,
    py_localize_fold0, bind, Except.bind]

/-- Evaluation of `to_timezone_parts` when every validation passes. -/
theorem to_timezone_parts_eval {i : Instant} {tz : String} {z : Zone}
    (hft : validate_timezone tz = .ok ()) (hz : platform_zone tz = some z) :
    to_timezone_parts i tz = .ok (secondsToParts (i.sec + offsetAt z i.sec)) := by
  simp only [to_timezone_parts, validate_date, validate_platform_timezone, hft, hz,
    bind, Except.bind]

/-! ### Claims -/

/-- C2: for the gap civil time `TimeParts(2024, 3, 31, 1, 30, 0)` in
Europe/London (a wall-clock reading that never occurs — `occursInZone` is
false for it), `from_timezone_parts` resolves to the UTC instant
2024-03-31T01:30:00Z, which is at or after the gap start
2024-03-31T01:00:00Z, never before the transition. -/
theorem c2_london_gap_at_or_after_gap_start :
    from_timezone_parts ⟨2024, 3, 31, 1, 30, 0⟩ "Europe/London" = .ok ⟨1711848600, 0⟩ ∧
    partsToSeconds ⟨2024, 3, 31, 1, 0, 0⟩ = 1711846800 ∧
    occursInZone londonZone (partsToSeconds ⟨2024, 3, 31, 1, 30, 0⟩) = false ∧
    (1711846800 : Int) ≤ 1711848600 := by
  decide

/-- C9: `dst_transition_dates 2024 "Europe/London"` (the spec-modelled
`transitions_for_year`) returns DST start 2024-03-31T01:00:00Z and DST end
2024-10-27T01:00:00Z; each returned instant is the first of the new regime:
`is_dst` already holds the post-flip value at the returned instant and
still holds the pre-flip value one second earlier. -/
theorem c9_london_2024_transition_dates :
    dst_transition_dates 2024 "Europe/London"
      = .ok (some (⟨1711846800, 0⟩, ⟨1729990800, 0⟩)) ∧
    partsToSeconds ⟨2024, 3, 31, 1, 0, 0⟩ = 1711846800 ∧
    partsToSeconds ⟨2024, 10, 27, 1, 0, 0⟩ = 1729990800 ∧
    is_dst ⟨1711846800, 0⟩ "Europe/London" = .ok true ∧
    is_dst ⟨1711846799, 0⟩ "Europe/London" = .ok false ∧
    is_dst ⟨1729990800, 0⟩ "Europe/London" = .ok false ∧
    is_dst ⟨1729990799, 0⟩ "Europe/London" = .ok true := by
  decide

/-- C4: the claimed year-range rejection does not happen.
`from_timezone_parts` accepts `TimeParts` with years 1969 and 2101 and
converts them (here in Asia/Tokyo, whose fixed UTC+9 offset was in force in
1969 and will be in 2101), because `validate_time_parts` only rejects
`year < 1`; the repository's own `validate_year` — which does reject 1969
and 2101 — is never called on this path. Years 1970 and 2100 are accepted,
as the claim states. -/
theorem c4_year_range_not_enforced :
    from_timezone_parts ⟨1969, 6, 15, 12, 0, 0⟩ "Asia/Tokyo" = .ok ⟨-17269200, 0⟩ ∧
    from_timezone_parts ⟨2101, 6, 15, 12, 0, 0⟩ "Asia/Tokyo" = .ok ⟨4148247600, 0⟩ ∧
    from_timezone_parts ⟨1970, 1, 1, 0, 0, 0⟩ "Asia/Tokyo" = .ok ⟨-32400, 0⟩ ∧
    from_timezone_parts ⟨2100, 12, 31, 23, 59, 59⟩ "Asia/Tokyo"
      = .ok ⟨partsToSeconds ⟨2100, 12, 31, 23, 59, 59⟩ - 32400, 0⟩ ∧
    validate_time_parts ⟨1969, 6, 15, 12, 0, 0⟩ = .ok () ∧
    validate_time_parts ⟨2101, 6, 15, 12, 0, 0⟩ = .ok () ∧
    validate_year 1969 = .error .yearOutOfRange ∧
    validate_year 2101 = .error .yearOutOfRange := by
  decide

/-- C5 counterexample: `to_timezone_parts` and `from_timezone_parts` do not
fail with an unsupported-timezone error on `Europe/Madrid`, an identifier
the platform database recognizes but that is not one of the seven registry
entries (`is_supported_timezone` is false and `get_timezone_metadata`
rejects it): both conversions succeed, so the claim is false. -/
theorem c5_counterexample_madrid_accepted :
    to_timezone_parts ⟨1721000000, 0⟩ "Europe/Madrid" = .ok ⟨2024, 7, 15, 1, 33, 20⟩ ∧
    from_timezone_parts ⟨2024, 7, 15, 1, 33, 20⟩ "Europe/Madrid" = .ok ⟨1721000000, 0⟩ ∧
    is_supported_timezone "Europe/Madrid" = false ∧
    get_timezone_metadata "Europe/Madrid" = .error .unsupportedTimezone ∧
    (platform_zone "Europe/Madrid").isSome = true := by
  decide

/-- C6 counterexample: for the gap input `TimeParts(2024, 3, 31, 1, 30, 0)`
in Europe/London, direct localization does not fail (`py_localize_fold0`
returns a value) and no forward search happens: the first later civil time
that exists is 30 minutes ahead (02:00 local, instant 2024-03-31T01:00:00Z,
as the 30 one-minute steps before it do not exist), yet `from_timezone_parts`
returns 2024-03-31T01:30:00Z — not the instant of the first existing civil
time — so the claimed forward-search behaviour is false on this input. -/
theorem c6_counterexample_gap_not_searched :
    occursInZone londonZone (partsToSeconds ⟨2024, 3, 31, 1, 30, 0⟩) = false ∧
    py_localize_fold0 londonZone (partsToSeconds ⟨2024, 3, 31, 1, 30, 0⟩)
      = some 1711848600 ∧
    from_timezone_parts ⟨2024, 3, 31, 1, 30, 0⟩ "Europe/London" = .ok ⟨1711848600, 0⟩ ∧
    ((List.range 30).all (fun k =>
      !(occursInZone londonZone (partsToSeconds ⟨2024, 3, 31, 1, 30, 0⟩ + 60 * (k : Int)))))
      = true ∧
    occursInZone londonZone (partsToSeconds ⟨2024, 3, 31, 1, 30, 0⟩ + 60 * 30) = true ∧
    from_timezone_parts ⟨2024, 3, 31, 2, 0, 0⟩ "Europe/London" = .ok ⟨1711846800, 0⟩ ∧
    (⟨1711848600, 0⟩ : Instant) ≠ ⟨1711846800, 0⟩ := by
  decide

/-- C3 counterexample: the instant 2024-07-15T12:00:00.500000Z has an
unambiguous local reading in Asia/Tokyo (a single occurrence offset), yet
converting to local parts and back loses the microsecond component, so the
round trip does not return the original instant and the claim as stated is
false. -/
theorem c3_counterexample_microseconds_lost :
    to_timezone_parts ⟨1721044800, 500000⟩ "Asia/Tokyo" = .ok ⟨2024, 7, 15, 21, 0, 0⟩ ∧
    ((occOffsets tokyoZone (1721044800 + offsetAt tokyoZone 1721044800)).dedup).length = 1 ∧
    from_timezone_parts ⟨2024, 7, 15, 21, 0, 0⟩ "Asia/Tokyo" = .ok ⟨1721044800, 0⟩ ∧
    (⟨1721044800, 0⟩ : Instant) ≠ ⟨1721044800, 500000⟩ := by
  decide

theorem _DAYS_IN_MONTH_le31 (m : Int) : _DAYS_IN_MONTH m ≤ 31 := by
  unfold _DAYS_IN_MONTH
  repeat' split
  all_goals omega

theorem _days_in_month_le31 (y m : Int) : _days_in_month y m ≤ 31 := by
  unfold _days_in_month
  split
  · omega
  · exact _DAYS_IN_MONTH_le31 m

/-- Whenever the start is not strictly before the end, `validate_working_hours`
fails (whichever check fires first, the error is the same `ValueError`). -/
theorem validate_working_hours_err {s e : TimeHM}
    (h : e.hour * 60 + e.minute ≤ s.hour * 60 + s.minute) :
    validate_working_hours s e = .error .invalidWorkingHours := by
  unfold validate_working_hours
  repeat' split
  all_goals first | rfl | (exfalso; omega)

theorem in_working_hours_err {date : Instant} {tz : String} {s e : TimeHM}
    (h : e.hour * 60 + e.minute ≤ s.hour * 60 + s.minute) :
    ∀ b, in_working_hours date tz s e ≠ .ok b := by
  intro b hok
  have hv := validate_working_hours_err h
  simp only [in_working_hours, validate_date, hv, bind, Except.bind] at hok
  cases hvt : validate_timezone tz with
  | error er => rw [hvt] at hok; simp at hok
  | ok u => cases u; rw [hvt] at hok; simp at hok

/-- C10: whenever the start time is not strictly before the end time (in
minutes since midnight), `in_working_hours` fails during validation and
never returns a Boolean; consequently a returned Boolean implies the start
was strictly before the end, so the midnight-spanning branch
(`start_minutes > end_minutes`) of `in_working_hours` is unreachable from
the public interface. -/
theorem c10_midnight_branch_unreachable (date : Instant) (tz : String) (s e : TimeHM) :
    (e.hour * 60 + e.minute ≤ s.hour * 60 + s.minute →
      ∀ b, in_working_hours date tz s e ≠ .ok b) ∧
    (∀ b, in_working_hours date tz s e = .ok b →
      s.hour * 60 + s.minute < e.hour * 60 + e.minute) := by
  constructor
  · intro h
    exact in_working_hours_err h
  · intro b hok
    by_contra hlt
    exact in_working_hours_err (by omega) b hok

theorem c10_witness :
    ((6 : Int) * 60 + 0 ≤ 22 * 60 + 0) ∧
    (∀ b, in_working_hours ⟨1721000000, 0⟩ "Europe/London" ⟨22, 0⟩ ⟨6, 0⟩ ≠ .ok b) :=
  ⟨by decide,
   (c10_midnight_branch_unreachable ⟨1721000000, 0⟩ "Europe/London" ⟨22, 0⟩ ⟨6, 0⟩).1
     (by decide)⟩

/-- C5 corrected: `to_timezone_parts` and `from_timezone_parts` check only
the identifier format and platform availability, not registry membership:
an identifier unknown to the platform database is rejected, while a
platform-recognized identifier outside the seven-entry registry, such as
`Europe/Madrid`, is accepted by both conversions even though
`get_timezone_metadata` rejects it as unsupported. -/
theorem c5_platform_validation_only (tz : String) (i : Instant) (p : TimeParts)
    (hnone : platform_zone tz = none) :
    (∀ q, to_timezone_parts i tz ≠ .ok q) ∧
    (∀ j, from_timezone_parts p tz ≠ .ok j) ∧
    to_timezone_parts ⟨1721000000, 0⟩ "Europe/Madrid" = .ok ⟨2024, 7, 15, 1, 33, 20⟩ ∧
    from_timezone_parts ⟨2024, 7, 15, 1, 33, 20⟩ "Europe/Madrid" = .ok ⟨1721000000, 0⟩ ∧
    get_timezone_metadata "Europe/Madrid" = .error .unsupportedTimezone := by
  refine ⟨?_, ?_, by decide, by decide, by decide⟩
  · intro q hok
    simp only [to_timezone_parts, validate_date, validate_platform_timezone, hnone,
      bind, Except.bind] at hok
    cases hvt : validate_timezone tz with
    | error er => rw [hvt] at hok; simp at hok
    | ok u => cases u; rw [hvt] at hok; simp at hok
  · intro j hok
    simp only [from_timezone_parts, validate_platform_timezone, hnone,
      bind, Except.bind] at hok
    cases hvp : validate_time_parts p with
    | error e1 => rw [hvp] at hok; simp at hok
    | ok u =>
      cases u
      rw [hvp] at hok
      cases hvt : validate_timezone tz with
      | error e2 => rw [hvt] at hok; simp at hok
      | ok u2 => cases u2; rw [hvt] at hok; simp at hok

theorem c5_witness :
    platform_zone "Mars/Olympus" = none ∧
    (∀ q, to_timezone_parts ⟨0, 0⟩ "Mars/Olympus" ≠ .ok q) :=
  ⟨by decide,
   (c5_platform_validation_only "Mars/Olympus" ⟨0, 0⟩ ⟨2024, 1, 1, 0, 0, 0⟩ (by decide)).1⟩

/-- C6 corrected: a gap civil time never makes direct localization fail —
`py_localize_fold0` is total (PEP 495 maps gap readings with the pre-gap
offset) — so `from_timezone_parts` returns the fold-0 interpretation of the
naive reading without stepping through later minutes, and the
forward/backward `gap_search` with its `UnresolvableCivilTime` error is
unreachable. -/
theorem c6_gap_resolved_directly_no_search (tz : String) (z : Zone) (p : TimeParts)
    (L : Int)
    (hv : validate_time_parts p = .ok ()) (hft : validate_timezone tz = .ok ())
    (hz : platform_zone tz = some z) (hmk : mkNaive p = some L)
    (_hgap : occursInZone z L = false) :
    py_localize_fold0 z L = some (L - localOffsetFold0 z L) ∧
    from_timezone_parts p tz = .ok ⟨L - localOffsetFold0 z L, 0⟩ :=
  ⟨rfl, from_timezone_parts_eval hv hft hz hmk⟩

theorem c6_witness :
    occursInZone londonZone 1711848600 = false ∧
    from_timezone_parts ⟨2024, 3, 31, 1, 30, 0⟩ "Europe/London"
      = .ok ⟨1711848600 - localOffsetFold0 londonZone 1711848600, 0⟩ :=
  ⟨by decide,
   (c6_gap_resolved_directly_no_search "Europe/London" londonZone
     ⟨2024, 3, 31, 1, 30, 0⟩ 1711848600
     (by decide) (by decide) (by decide) (by decide) (by decide)).2⟩

/-- C8: `Asia/Tokyo` never presents an ambiguity or a gap: every valid
`TimeParts` converts via `from_timezone_parts` to exactly the naive reading
minus 540 minutes, that instant is the unique occurrence of the reading,
`to_timezone_parts` maps it back to the same parts, and `is_dst` reports
`false` at every instant (the registry has no DST offset for Tokyo). -/
theorem c8_tokyo_fixed_offset_no_dst (c : TimeParts) (L : Int) (i : Instant)
    (hv : validate_time_parts c = .ok ()) (hmk : mkNaive c = some L) :
    from_timezone_parts c "Asia/Tokyo" = .ok ⟨L - 540 * 60, 0⟩ ∧
    (∀ u : Int, u + offsetAt tokyoZone u = L ↔ u = L - 540 * 60) ∧
    to_timezone_parts ⟨L - 540 * 60, 0⟩ "Asia/Tokyo" = .ok c ∧
    is_dst i "Asia/Tokyo" = .ok false := by
  have hz : platform_zone "Asia/Tokyo" = some tokyoZone := by decide
  have hft : validate_timezone "Asia/Tokyo" = .ok () := by decide
  have hoff : ∀ u : Int, offsetAt tokyoZone u = 32400 := fun _ => rfl
  obtain ⟨hL, hy1, hy2, hm1, hm2, hd1, hd2, hh1, hh2, hmi1, hmi2, hs1, hs2⟩ :=
    mkNaive_some hmk
  have h540 : L - 540 * 60 = L - 32400 := by norm_num
  refine ⟨?_, ?_, ?_, rfl⟩
  · have h := from_timezone_parts_eval hv hft hz hmk
    have hc0 : localOffsetFold0 tokyoZone L = 32400 := rfl
    rw [hc0] at h
    rw [h540]
    exact h
  · intro u
    rw [hoff u]
    omega
  · have ht := to_timezone_parts_eval (i := ⟨L - 540 * 60, 0⟩) hft hz
    rw [ht]
    show Except.ok (secondsToParts ((L - 540 * 60) + offsetAt tokyoZone (L - 540 * 60)))
      = Except.ok c
    have harg : (L - 540 * 60) + offsetAt tokyoZone (L - 540 * 60) = L := by
      rw [hoff]; ring
    rw [harg, ← hL,
      secondsToParts_partsToSeconds c hm1 hm2 hd1 hd2 hh1 hh2 hmi1 hmi2 hs1 hs2]

theorem c8_witness :
    validate_time_parts ⟨2024, 7, 15, 21, 0, 0⟩ = .ok () ∧
    from_timezone_parts ⟨2024, 7, 15, 21, 0, 0⟩ "Asia/Tokyo"
      = .ok ⟨1721077200 - 540 * 60, 0⟩ :=
  ⟨by decide,
   (c8_tokyo_fixed_offset_no_dst ⟨2024, 7, 15, 21, 0, 0⟩ 1721077200 ⟨0, 0⟩
     (by decide) (by decide)).1⟩

/-- C7: for every valid `TimeParts` whose naive reading occurs in a
well-formed platform timezone (i.e. the civil time is not in a DST gap),
`from_timezone_parts` followed by `to_timezone_parts` reproduces the parts
exactly. -/
theorem c7_civil_roundtrip (tz : String) (z : Zone) (p : TimeParts) (L : Int)
    (hz : platform_zone tz = some z) (hwf : z.wf = true)
    (hft : validate_timezone tz = .ok ())
    (hv : validate_time_parts p = .ok ()) (hmk : mkNaive p = some L)
    (hocc : occursInZone z L = true) :
    ∃ r : Int, from_timezone_parts p tz = .ok ⟨r, 0⟩ ∧
      to_timezone_parts ⟨r, 0⟩ tz = .ok p := by
  obtain ⟨hL, hy1, hy2, hm1, hm2, hd1, hd2, hh1, hh2, hmi1, hmi2, hs1, hs2⟩ :=
    mkNaive_some hmk
  obtain ⟨hoccr, hleast⟩ := fold0_least_zone z L hwf hocc
  refine ⟨L - localOffsetFold0 z L, from_timezone_parts_eval hv hft hz hmk, ?_⟩
  have ht := to_timezone_parts_eval (i := ⟨L - localOffsetFold0 z L, 0⟩) hft hz
  rw [ht]
  show Except.ok (secondsToParts ((L - localOffsetFold0 z L)
    + offsetAt z (L - localOffsetFold0 z L))) = Except.ok p
  unfold isOccurrence at hoccr
  rw [hoccr, ← hL,
    secondsToParts_partsToSeconds p hm1 hm2 hd1 hd2 hh1 hh2 hmi1 hmi2 hs1 hs2]

theorem c7_witness :
    occursInZone londonZone 1721044800 = true ∧
    (∃ r : Int, from_timezone_parts ⟨2024, 7, 15, 12, 0, 0⟩ "Europe/London" = .ok ⟨r, 0⟩ ∧
      to_timezone_parts ⟨r, 0⟩ "Europe/London" = .ok ⟨2024, 7, 15, 12, 0, 0⟩) :=
  ⟨by decide,
   c7_civil_roundtrip "Europe/London" londonZone ⟨2024, 7, 15, 12, 0, 0⟩ 1721044800
     (by decide) (by decide) (by decide) (by decide) (by decide) (by decide)⟩

theorem validate_time_parts_of_secondsToParts (n : Int)
    (hy1 : 1 ≤ (secondsToParts n).year) :
    validate_time_parts (secondsToParts n) = .ok () := by
  obtain ⟨pm1, pm2, pd1, pd2, ph1, ph2, pmi1, pmi2, ps1, ps2⟩ := secondsToParts_valid n
  have hdle := _days_in_month_le31 (secondsToParts n).year (secondsToParts n).month
  unfold validate_time_parts
  repeat' split
  all_goals first | rfl | (exfalso; omega)

theorem mkNaive_secondsToParts (n : Int)
    (hy1 : 1 ≤ (secondsToParts n).year) (hy2 : (secondsToParts n).year ≤ 9999) :
    mkNaive (secondsToParts n) = some n := by
  obtain ⟨pm1, pm2, pd1, pd2, ph1, ph2, pmi1, pmi2, ps1, ps2⟩ := secondsToParts_valid n
  unfold mkNaive
  rw [if_pos ⟨hy1, hy2, pm1, pm2, pd1, pd2, ph1, ph2, pmi1, pmi2, ps1, ps2⟩,
    partsToSeconds_secondsToParts]

/-- C1: when a civil time is ambiguous (its naive reading has at least two
distinct occurrence offsets), `from_timezone_parts` returns an occurrence of
the reading that is earlier than every other occurrence — in particular
strictly earlier than some second occurrence — i.e. the first (pre-transition)
interpretation, deterministically. -/
theorem c1_ambiguous_earliest (tz : String) (z : Zone) (p : TimeParts) (L : Int)
    (hz : platform_zone tz = some z) (hwf : z.wf = true)
    (hft : validate_timezone tz = .ok ())
    (hv : validate_time_parts p = .ok ()) (hmk : mkNaive p = some L)
    (hamb : 2 ≤ ((occOffsets z L).dedup).length) :
    ∃ r : Int, from_timezone_parts p tz = .ok ⟨r, 0⟩ ∧
      isOccurrence z L r ∧ (∀ u, isOccurrence z L u → r ≤ u) ∧
      ∃ u2, isOccurrence z L u2 ∧ r < u2 := by
  have hocc : occursInZone z L = true := by
    unfold occursInZone
    cases hl : occOffsets z L with
    | nil => rw [hl] at hamb; simp at hamb
    | cons a as => simp
  obtain ⟨hoccr, hleast⟩ := fold0_least_zone z L hwf hocc
  refine ⟨L - localOffsetFold0 z L, from_timezone_parts_eval hv hft hz hmk,
    hoccr, hleast, ?_⟩
  cases hl : (occOffsets z L).dedup with
  | nil => rw [hl] at hamb; simp at hamb
  | cons o1 tail =>
    cases tail with
    | nil => rw [hl] at hamb; simp at hamb
    | cons o2 rest =>
      have hnd : ((occOffsets z L).dedup).Nodup := List.nodup_dedup _
      rw [hl] at hnd
      have hne : o1 ≠ o2 := by
        intro he
        exact (List.nodup_cons.mp hnd).1 (he ▸ List.mem_cons_self o2 rest)
      have hm1 : o1 ∈ occOffsets z L :=
        List.mem_dedup.mp (by rw [hl]; exact List.mem_cons_self o1 (o2 :: rest))
      have hm2 : o2 ∈ occOffsets z L :=
        List.mem_dedup.mp
          (by rw [hl]; exact List.mem_cons_of_mem o1 (List.mem_cons_self o2 rest))
      have ho1 := (occOffsets_mem_iff.mp hm1).2
      have ho2 := (occOffsets_mem_iff.mp hm2).2
      have hu1 : isOccurrence z L (L - o1) := by unfold isOccurrence; omega
      have hu2 : isOccurrence z L (L - o2) := by unfold isOccurrence; omega
      have hge1 := hleast _ hu1
      have hge2 := hleast _ hu2
      by_cases hc : L - localOffsetFold0 z L < L - o1
      · exact ⟨L - o1, hu1, hc⟩
      · exact ⟨L - o2, hu2, by omega⟩

theorem c1_witness :
    2 ≤ ((occOffsets londonZone 1729992600).dedup).length ∧
    (∃ r : Int,
      from_timezone_parts ⟨2024, 10, 27, 1, 30, 0⟩ "Europe/London" = .ok ⟨r, 0⟩ ∧
      isOccurrence londonZone 1729992600 r ∧
      (∀ u, isOccurrence londonZone 1729992600 u → r ≤ u) ∧
      ∃ u2, isOccurrence londonZone 1729992600 u2 ∧ r < u2) :=
  ⟨by decide,
   c1_ambiguous_earliest "Europe/London" londonZone ⟨2024, 10, 27, 1, 30, 0⟩ 1729992600
     (by decide) (by decide) (by decide) (by decide) (by decide) (by decide)⟩

/-- C3 corrected: the utc→civil→utc round-trip holds for whole-second
instants whose local reading is unambiguous: with `i.usec = 0` and exactly
one occurrence offset for the reading, `to_timezone_parts` yields the local
parts and `from_timezone_parts` of those parts returns `i` exactly.
(`TimeParts` drops microseconds, so instants with `usec ≠ 0` cannot
round-trip; on the earlier fold of an ambiguous reading the round-trip also
holds, but on the later fold it does not.) -/
theorem c3_roundtrip_whole_second_unambiguous (tz : String) (z : Zone) (i : Instant)
    (hz : platform_zone tz = some z) (hwf : z.wf = true)
    (hft : validate_timezone tz = .ok ())
    (husec : i.usec = 0)
    (hy1 : 1 ≤ (secondsToParts (i.sec + offsetAt z i.sec)).year)
    (hy2 : (secondsToParts (i.sec + offsetAt z i.sec)).year ≤ 9999)
    (huna : ((occOffsets z (i.sec + offsetAt z i.sec)).dedup).length = 1) :
    to_timezone_parts i tz = .ok (secondsToParts (i.sec + offsetAt z i.sec)) ∧
    from_timezone_parts (secondsToParts (i.sec + offsetAt z i.sec)) tz = .ok i := by
  have hv := validate_time_parts_of_secondsToParts (i.sec + offsetAt z i.sec) hy1
  have hmk := mkNaive_secondsToParts (i.sec + offsetAt z i.sec) hy1 hy2
  refine ⟨to_timezone_parts_eval hft hz, ?_⟩
  have hres := from_timezone_parts_eval hv hft hz hmk
  rw [hres]
  have hocc_i : isOccurrence z (i.sec + offsetAt z i.sec) i.sec := rfl
  have hocc : occursInZone z (i.sec + offsetAt z i.sec) = true :=
    occursInZone_iff.mpr ⟨i.sec, hocc_i⟩
  obtain ⟨hoccr, hleast⟩ := fold0_least_zone z (i.sec + offsetAt z i.sec) hwf hocc
  cases hl : (occOffsets z (i.sec + offsetAt z i.sec)).dedup with
  | nil => rw [hl] at huna; simp at huna
  | cons o tail =>
    cases tail with
    | cons o2 r2 => rw [hl] at huna; simp at huna
    | nil =>
      have h1 : (i.sec + offsetAt z i.sec)
          - ((i.sec + offsetAt z i.sec)
              - localOffsetFold0 z (i.sec + offsetAt z i.sec)) = o :=
        List.mem_singleton.mp
          (by rw [← hl]; exact List.mem_dedup.mpr (occurrence_offset_mem hoccr))
      have h2 : (i.sec + offsetAt z i.sec) - i.sec = o :=
        List.mem_singleton.mp
          (by rw [← hl]; exact List.mem_dedup.mpr (occurrence_offset_mem hocc_i))
      have hr_eq : (i.sec + offsetAt z i.sec)
          - localOffsetFold0 z (i.sec + offsetAt z i.sec) = i.sec := by omega
      rw [hr_eq]
      have hi : i = ⟨i.sec, 0⟩ := by
        cases i with
        | mk s u => simp only [Instant.mk.injEq]; exact ⟨trivial, husec⟩
      rw [← hi]

theorem c3_witness :
    (⟨1721044800, 0⟩ : Instant).usec = 0 ∧
    ((occOffsets tokyoZone (1721044800 + offsetAt tokyoZone 1721044800)).dedup).length = 1 ∧
    to_timezone_parts ⟨1721044800, 0⟩ "Asia/Tokyo"
      = .ok (secondsToParts (1721044800 + offsetAt tokyoZone 1721044800)) ∧
    from_timezone_parts (secondsToParts (1721044800 + offsetAt tokyoZone 1721044800))
      "Asia/Tokyo" = .ok ⟨1721044800, 0⟩ :=
  ⟨by decide, by decide,
   c3_roundtrip_whole_second_unambiguous "Asia/Tokyo" tokyoZone ⟨1721044800, 0⟩
     (by decide) (by decide) (by decide) (by decide) (by decide) (by decide) (by decide)⟩
